import Mathlib

/-!
# Verification of the `rust_xlsxwriter` worksheet core

A shallow embedding, in Lean 4, of the parts of `src/worksheet.rs`,
`src/utility.rs` and `src/format.rs` of the `rust_xlsxwriter` repository that
the specification claims talk about: the formula preprocessor, the datetime
serial converter, the sparse cell store with its dimension tracking, the
merge-range, hyperlink and autofilter logic, and the relevant fragments of
SpreadsheetML cell emission.

Rust `&mut self` methods that return `Result<&mut Worksheet, XlsxError>` are
embedded as state-passing functions `Worksheet → ... → Option XlsxError ×
Worksheet`: the returned worksheet is the mutated receiver, which Rust keeps
even when the method returns `Err` (the `Option` is `some e` exactly when the
Rust method returns `Err(e)`).  `HashMap`s are embedded as association lists
with newest-binding-first shadowing, which models `get`/`insert` exactly.
`f64` cell payloads are embedded by their IEEE value class (`nan`, infinities,
or an exact finite value), which is what the code branches on.
-/

namespace XlsxSpec

/-! ## Association lists (model of `HashMap` lookup/insert) -/

/-- Lookup in an association list, newest binding first.  Models
`HashMap::get`. -/
def alGet {K V : Type} [DecidableEq K] (k : K) : List (K × V) → Option V
  | [] => none
  | (k', v) :: rest => if k' = k then some v else alGet k rest

/-! ## Character/string helpers shared by the embedding -/

/-- `isPfx needle hay` is true when `needle` is a prefix of `hay`
(model of `str::starts_with` and the first step of substring search). -/
def isPfx : List Char → List Char → Bool
  | [], _ => true
  | _ :: _, [] => false
  | c :: cs, d :: ds => c = d && isPfx cs ds

/-- `containsSub needle hay` is true when `needle` occurs contiguously inside
`hay` (model of Rust's `str::contains` with a literal pattern). -/
def containsSub (needle : List Char) : List Char → Bool
  | [] => isPfx needle []
  | c :: cs => isPfx needle (c :: cs) || containsSub needle cs

/-- Word character in the sense of the regex `\b` boundary: alphanumeric or
underscore. -/
def wordChar (c : Char) : Bool := c.isAlphanum || c = '_'

/-! ## Formula preprocessor (`prepare_formula` and friends, worksheet.rs)

The Rust code uses `Regex::replace_all` with patterns of the form
`\b(NAME1|NAME2|...)\(` and replacement `_xlfn.$1(`.  The `regex` crate uses
leftmost-first matching, so this is an in-order scan of the input which, at
every position preceded by a non-word character (or at the start), tries the
alternatives in pattern order and requires a literal `(` after the name.  The
scanner below implements exactly that: on a match it emits the replacement
prefix followed by the matched name, then skips the name; the `(` that closes
the match is re-processed as an ordinary character, which is equivalent
because no alternative starts with `(` and `(` is a non-word character. -/

/-- Try to strip `name` from the front of `cs`; return the remainder. -/
def stripName : List Char → List Char → Option (List Char)
  | [], rest => some rest
  | _ :: _, [] => none
  | n :: ns, c :: cs => if n = c then stripName ns cs else none

/-- First name of `names` (in order) that matches at the head of `cs` and is
followed by a literal `(`.  Returns the name and the remainder starting at
the `(`.  Empty names never match. -/
def tryMatch (names : List (List Char)) (cs : List Char) :
    Option (List Char × List Char) :=
  match names with
  | [] => none
  | n :: ns =>
    if n.isEmpty then tryMatch ns cs
    else
      match stripName n cs with
      | some rest =>
        if rest.head? = some '(' then some (n, rest) else tryMatch ns cs
      | none => tryMatch ns cs

/-- The replacement scan.  `skip` counts characters of an already-emitted
match that still have to be dropped from the input; `atB` records whether the
previous character was a word boundary (start of input or non-word char). -/
def scanRepl (names : List (List Char)) (pfx : List Char) :
    Nat → Bool → List Char → List Char
  | _, _, [] => []
  | skip + 1, _, _ :: cs => scanRepl names pfx skip false cs
  | 0, atB, c :: cs =>
    if atB then
      match tryMatch names (c :: cs) with
      | some (nm, _) => pfx ++ nm ++ scanRepl names pfx (nm.length - 1) false cs
      | none => c :: scanRepl names pfx 0 (!wordChar c) cs
    else c :: scanRepl names pfx 0 (!wordChar c) cs

/-- `Regex::is_match` for a pattern `\b(NAME1|...)\(`. -/
def hasFnMatch (names : List (List Char)) : Bool → List Char → Bool
  | _, [] => false
  | atB, c :: cs =>
    (atB && (tryMatch names (c :: cs)).isSome) || hasFnMatch names (!wordChar c) cs

/-- The dynamic-array function set given the plain `_xlfn.` prefix
(`escape_dynamic_formulas1`). -/
def xlfnFnNames : List (List Char) :=
  ["ANCHORARRAY", "LAMBDA", "LET", "RANDARRAY", "SEQUENCE", "SINGLE",
   "SORTBY", "UNIQUE", "XLOOKUP", "XMATCH"].map String.data

/-- The dynamic-array function set given the `_xlfn._xlws.` prefix
(`escape_dynamic_formulas2`). -/
def xlwsFnNames : List (List Char) := ["FILTER", "SORT"].map String.data

/-- The Excel 2010+ future-function set (`escape_future_functions`), in the
alternation order of the Rust regex. -/
def futureFnNames : List (List Char) :=
  ["ACOTH", "ACOT", "AGGREGATE", "ARABIC", "BASE", "BETA.DIST", "BETA.INV",
   "BINOM.DIST.RANGE", "BINOM.DIST", "BINOM.INV", "BITAND", "BITLSHIFT",
   "BITOR", "BITRSHIFT", "BITXOR", "CEILING.MATH", "CEILING.PRECISE",
   "CHISQ.DIST.RT", "CHISQ.DIST", "CHISQ.INV.RT", "CHISQ.INV", "CHISQ.TEST",
   "COMBINA", "CONCAT", "CONFIDENCE.NORM", "CONFIDENCE.T", "COTH", "COT",
   "COVARIANCE.P", "COVARIANCE.S", "CSCH", "CSC", "DAYS", "DECIMAL",
   "ERF.PRECISE", "ERFC.PRECISE", "EXPON.DIST", "F.DIST.RT", "F.DIST",
   "F.INV.RT", "F.INV", "F.TEST", "FILTERXML", "FLOOR.MATH", "FLOOR.PRECISE",
   "FORECAST.ETS.CONFINT", "FORECAST.ETS.SEASONALITY", "FORECAST.ETS.STAT",
   "FORECAST.ETS", "FORECAST.LINEAR", "FORMULATEXT", "GAMMA.DIST",
   "GAMMA.INV", "GAMMALN.PRECISE", "GAMMA", "GAUSS", "HYPGEOM.DIST", "IFNA",
   "IFS", "IMCOSH", "IMCOT", "IMCSCH", "IMCSC", "IMSECH", "IMSEC", "IMSINH",
   "IMTAN", "ISFORMULA", "ISOWEEKNUM", "LOGNORM.DIST", "LOGNORM.INV",
   "MAXIFS", "MINIFS", "MODE.MULT", "MODE.SNGL", "MUNIT", "NEGBINOM.DIST",
   "NORM.DIST", "NORM.INV", "NORM.S.DIST", "NORM.S.INV", "NUMBERVALUE",
   "PDURATION", "PERCENTILE.EXC", "PERCENTILE.INC", "PERCENTRANK.EXC",
   "PERCENTRANK.INC", "PERMUTATIONA", "PHI", "POISSON.DIST", "QUARTILE.EXC",
   "QUARTILE.INC", "QUERYSTRING", "RANK.AVG", "RANK.EQ", "RRI", "SECH",
   "SEC", "SHEETS", "SHEET", "SKEW.P", "STDEV.P", "STDEV.S", "SWITCH",
   "T.DIST.2T", "T.DIST.RT", "T.DIST", "T.INV.2T", "T.INV", "T.TEST",
   "TEXTJOIN", "UNICHAR", "UNICODE", "VAR.P", "VAR.S", "WEBSERVICE",
   "WEIBULL.DIST", "XOR", "Z.TEST"].map String.data

/-- The function set tested by `is_dynamic_function`. -/
def dynamicFnNames : List (List Char) :=
  ["ANCHORARRAY", "FILTER", "LAMBDA", "LET", "RANDARRAY", "SEQUENCE",
   "SINGLE", "SORTBY", "SORT", "UNIQUE", "XLOOKUP", "XMATCH"].map String.data

/-- The literal `_xlfn.` that `prepare_formula` tests for. -/
def xlfnLit : List Char := "_xlfn.".data

/-- `escape_dynamic_formulas1`. -/
def escape_dynamic_formulas1 (f : List Char) : List Char :=
  scanRepl xlfnFnNames "_xlfn.".data 0 true f

/-- `escape_dynamic_formulas2`. -/
def escape_dynamic_formulas2 (f : List Char) : List Char :=
  scanRepl xlwsFnNames "_xlfn._xlws.".data 0 true f

/-- `escape_future_functions`. -/
def escape_future_functions (f : List Char) : List Char :=
  scanRepl futureFnNames "_xlfn.".data 0 true f

/-- The expansion passes of `prepare_formula` (its `else` branch): dynamic
`_xlfn.` functions, then the `_xlfn._xlws.` pair, then optionally the future
functions. -/
def expandPipeline (expand_future_functions : Bool) (f3 : List Char) : List Char :=
  let f4 := escape_dynamic_formulas1 f3
  let f5 := escape_dynamic_formulas2 f4
  if expand_future_functions then escape_future_functions f5 else f5

/-- The opening brace character (written by code point to keep XML/regex
text and Lean syntax apart). -/
def lbrace : Char := Char.ofNat 123

/-- The closing brace character. -/
def rbrace : Char := Char.ofNat 125

/-- The stripping steps of `prepare_formula`: remove a leading `{` (if any),
then a leading `=` (if any), then a trailing `}` (if any). -/
def stripArrayBraces (formula : List Char) : List Char :=
  let f1 := if formula.head? = some lbrace then formula.tail else formula
  let f2 := if f1.head? = some '=' then f1.tail else f1
  if f2.getLast? = some rbrace then f2.dropLast else f2

/-- `prepare_formula` on character lists: strip array braces and the leading
`=`, return unchanged if `_xlfn.` is already present, otherwise expand the
dynamic-array functions and (optionally) the future functions. -/
def prepareFormulaChars (formula : List Char) (expand_future_functions : Bool) :
    List Char :=
  let f3 := stripArrayBraces formula
  if containsSub xlfnLit f3 then f3
  else expandPipeline expand_future_functions f3

/-- `prepare_formula` on `String`s. -/
def prepare_formula (formula : String) (expand_future_functions : Bool) : String :=
  String.mk (prepareFormulaChars formula.data expand_future_functions)

/-- `is_dynamic_function`. -/
def is_dynamic_function (formula : String) : Bool :=
  hasFnMatch dynamicFnNames true formula.data

/-! ## Excel limits (worksheet.rs constants) -/

/-- `ROW_MAX`. -/
def ROW_MAX : Nat := 1048576

/-- `COL_MAX`. -/
def COL_MAX : Nat := 16384

/-- `MAX_STRING_LEN`. -/
def MAX_STRING_LEN : Nat := 32767

/-- `MAX_URL_LEN`. -/
def MAX_URL_LEN : Nat := 2080

/-- `MAX_PARAMETER_LEN`. -/
def MAX_PARAMETER_LEN : Nat := 255

/-! ## `utility.rs`: column names and range strings -/

/-- One iteration step of the `col_to_name` loop; `fuel` bounds the number of
iterations (the Rust loop runs until the remaining column number is zero,
which takes at most `n + 1` steps, so the fuel used below never runs out). -/
def colToNameAux : Nat → Nat → List Char → List Char
  | _, 0, acc => acc
  | 0, _ + 1, acc => acc
  | fuel + 1, n + 1, acc =>
    let rem0 := (n + 1) % 26
    let rem := if rem0 = 0 then 26 else rem0
    let letter := Char.ofNat (64 + rem)
    colToNameAux fuel (((n + 1) - 1) / 26) (letter :: acc)

/-- `utility::col_to_name`: zero-indexed column number to Excel letters. -/
def col_to_name (col_num : Nat) : String :=
  String.mk (colToNameAux (col_num + 1) (col_num + 1) [])

/-- `utility::rowcol_to_cell`: zero-indexed cell to `A1` notation. -/
def rowcol_to_cell (row_num col_num : Nat) : String :=
  col_to_name col_num ++ toString (row_num + 1)

/-- `utility::cell_range`: `A1:B2` style range string (collapsed when both
corners coincide). -/
def cell_range (first_row first_col last_row last_col : Nat) : String :=
  let range1 := rowcol_to_cell first_row first_col
  let range2 := rowcol_to_cell last_row last_col
  if range1 = range2 then range1 else range1 ++ ":" ++ range2

/-! ## `f64` cell payloads

The worksheet code only ever branches on the IEEE class of a written number
(`is_nan`, `is_infinite`) and otherwise carries the value opaquely (compared
with `==` by the autofilter).  We embed an `f64` by its value class, with
finite values kept exactly. -/

/-- An `f64` as the cell store sees it. -/
inductive F64 where
  | nan : F64
  | posInf : F64
  | negInf : F64
  | finite : ℚ → F64
  deriving DecidableEq

/-- `f64::is_nan`. -/
def F64.isNan : F64 → Bool
  | .nan => true
  | _ => false

/-- `f64::is_infinite`. -/
def F64.isInfinite : F64 → Bool
  | .posInf => true
  | .negInf => true
  | _ => false

/-- IEEE `==` on our `f64` model: `NaN` equals nothing, infinities and finite
values compare by identity. -/
def F64.ieeeEq : F64 → F64 → Bool
  | .nan, _ => false
  | _, .nan => false
  | .posInf, .posInf => true
  | .negInf, .negInf => true
  | .finite a, .finite b => a = b
  | _, _ => false

/-! ## Datetime serial conversion (worksheet.rs `date_to_excel` etc.)

`chrono` date subtraction computes the exact number of Gregorian calendar
days between two dates; we embed it with the standard civil-from-days
formula (days since 1970-01-01).  Times are embedded by their total
milliseconds since midnight; the conversions below are exact in `ℚ` (all the
doubles the Rust code produces here are exactly representable). -/

/-- Days from 1970-01-01 of the Gregorian date `y-m-d` (Hinnant's
`days_from_civil`; `Int` division truncates toward zero exactly as in the
reference algorithm because the shifted year is made non-negative). -/
def daysFromCivil (y : Int) (m d : Nat) : Int :=
  let y' : Int := if m ≤ 2 then y - 1 else y
  let era : Int := (if 0 ≤ y' then y' else y' - 399) / 400
  let yoe : Int := y' - era * 400
  let doy : Int := (153 * (if 2 < m then (m : Int) - 3 else (m : Int) + 9) + 2) / 5 + d - 1
  let doe : Int := yoe * 365 + yoe / 4 - yoe / 100 + doy
  era * 146097 + doe - 719468

/-- The day number of the Excel 1900 epoch date 1899-12-31. -/
def epochDay : Int := daysFromCivil 1899 12 31

/-- The integer day count `(date - epoch).num_days()` of `date_to_excel`. -/
def excelDays (y : Int) (m d : Nat) : Int := daysFromCivil y m d - epochDay

/-- `Worksheet::date_to_excel`: serial day count with the spurious
1900-02-29 adjustment (`+1` whenever the raw day count exceeds 59; the
epoch year is 1899 so the condition in the code is always armed). -/
def date_to_excel (y : Int) (m d : Nat) : ℚ :=
  let days := excelDays y m d
  ((if 59 < days then days + 1 else days : Int) : ℚ)

/-- Milliseconds in a day. -/
def MS_PER_DAY : Nat := 24 * 60 * 60 * 1000

/-- `Worksheet::time_to_excel` on a time given as milliseconds since
midnight. -/
def time_to_excel (ms : Nat) : ℚ := (ms : ℚ) / (MS_PER_DAY : ℚ)

/-- `Worksheet::datetime_to_excel`: date serial plus time fraction. -/
def datetime_to_excel (y : Int) (m d ms : Nat) : ℚ :=
  date_to_excel y m d + time_to_excel ms

/-! ## Errors (`XlsxError`)

The error enum lives in `src/error.rs`, which is not part of the provided
sources; the variants below are exactly the ones constructed or documented by
`src/worksheet.rs` (`UnknownUrlType` is documented on the `write_url` family
but, as proved later, never constructed). -/

/-- The library error type, as used by the worksheet write path. -/
inductive XlsxError where
  | RowColumnLimitError : XlsxError
  | RowColumnOrderError : XlsxError
  | MaxStringLengthExceeded : XlsxError
  | MaxUrlLengthExceeded : XlsxError
  | UnknownUrlType : XlsxError
  | MergeRangeSingleCell : XlsxError
  | MergeRangeOverlaps : String → String → XlsxError
  | ParameterError : String → XlsxError
  deriving DecidableEq

/-! ## Formats

`Format` equality is structural ("two formats with identical field tuples
collapse to one index"); `format_key()` — defined in a part of `format.rs`
not present under `src/` — is, per spec §4.C, "a deterministic serialization
of every field", so key equality coincides with structural equality of the
format.  The claims under verification never inspect the appearance fields
(fonts, fills, borders, number formats), so we embed them as a single opaque
but decidable `appearance` component next to the flags `worksheet.rs` itself
reads (`is_hyperlink`); the default format is `⟨0, false⟩`. -/

/-- A cell format, up to the structural equality used by `format_key`. -/
structure Format where
  appearance : Nat := 0
  is_hyperlink : Bool := false
  deriving DecidableEq

instance : Inhabited Format := ⟨{}⟩

/-! ## The cell store data model (worksheet.rs `CellType` etc.) -/

/-- `CellType`: the tagged cell variants of the sparse store. -/
inductive CellType where
  | arrayFormula (formula : String) (xf_index : Nat) (result : String)
      (is_dynamic : Bool) (range : String) : CellType
  | blank (xf_index : Nat) : CellType
  | boolean (boolean : Bool) (xf_index : Nat) : CellType
  | formula (formula : String) (xf_index : Nat) (result : String) : CellType
  | number (number : F64) (xf_index : Nat) : CellType
  | datetime (number : F64) (xf_index : Nat) : CellType
  | str (string : String) (xf_index : Nat) : CellType
  | richString (string : String) (xf_index : Nat) (raw_string : String) : CellType
  deriving DecidableEq

/-- `CellRange` (zero indexed corners). -/
structure CellRange where
  first_row : Nat
  first_col : Nat
  last_row : Nat
  last_col : Nat
  deriving DecidableEq

/-- `CellRange::to_range_string`. -/
def CellRange.to_range_string (r : CellRange) : String :=
  cell_range r.first_row r.first_col r.last_row r.last_col

/-- `CellRange::to_error_string`. -/
def CellRange.to_error_string (r : CellRange) : String :=
  "(" ++ toString r.first_row ++ ", " ++ toString r.first_col ++ ", " ++
    toString r.last_row ++ ", " ++ toString r.last_col ++ ") / " ++
    cell_range r.first_row r.first_col r.last_row r.last_col

/-- Membership of a cell in a `CellRange`. -/
def CellRange.containsCell (r : CellRange) (row col : Nat) : Prop :=
  r.first_row ≤ row ∧ row ≤ r.last_row ∧ r.first_col ≤ col ∧ col ≤ r.last_col

instance (r : CellRange) (row col : Nat) : Decidable (r.containsCell row col) := by
  unfold CellRange.containsCell; infer_instance

/-- `RowOptions` (row height/format/hidden, kept apart from cells). -/
structure RowOptions where
  height : ℚ
  xf_index : Nat
  hidden : Bool
  deriving DecidableEq

/-- `DEFAULT_ROW_HEIGHT` (15.0). -/
def DEFAULT_ROW_HEIGHT : ℚ := 15

/-- The fields of `DefinedName` that the autofilter logic reads. -/
structure DefinedName where
  in_use : Bool := false
  first_row : Nat := 0
  first_col : Nat := 0
  last_row : Nat := 0
  last_col : Nat := 0
  deriving DecidableEq

/-! ## Autofilter conditions

`FilterCondition`/`FilterData` live in the crate root (`src/filter.rs`),
which is not under `src/`; the fields below are exactly the ones
`worksheet.rs` reads (`is_list_filter`, `list` with per-entry
`data_type`/`string`/`number`, `should_match_blanks`, `custom1`), per the
spec's description of list filters ("set of literal string/number matches,
plus an optional match-blanks flag"). -/

/-- `FilterDataType`. -/
inductive FilterDataType where
  | string : FilterDataType
  | number : FilterDataType
  deriving DecidableEq

/-- One literal of a filter condition. -/
structure FilterData where
  data_type : FilterDataType
  string : String
  number : F64
  deriving DecidableEq

/-- A per-column filter condition (only the list-filter fields are exercised
by the claims; `custom1` is carried for the `filter_column` validation). -/
structure FilterCondition where
  is_list_filter : Bool := true
  list : List FilterData := []
  should_match_blanks : Bool := false
  custom1 : Option FilterData := none
  deriving DecidableEq

/-! ## Hyperlinks (worksheet.rs `Hyperlink`)

String helpers first: these model the specific `str`/`Regex` operations the
`initialize` method performs. -/

/-- Remove the first occurrence of `needle` from `hay`
(Rust `str::replacen(needle, "", 1)`). -/
def removeFirst (needle : List Char) : List Char → List Char
  | [] => []
  | c :: cs =>
    if isPfx needle (c :: cs) then (c :: cs).drop needle.length
    else c :: removeFirst needle cs

/-- Split at the first `#` (Rust `str::splitn(2, '#')`): the part before it
and, when a `#` exists, the part after it. -/
def splitHash : List Char → List Char × Option (List Char)
  | [] => ([], none)
  | c :: cs =>
    if c = '#' then ([], some cs)
    else
      let (a, b) := splitHash cs
      (c :: a, b)

/-- The regex `^(ftp|http)s?://` of `Hyperlink::initialize`. -/
def urlSchemeMatch (url : List Char) : Bool :=
  isPfx "http://".data url || isPfx "https://".data url ||
    isPfx "ftp://".data url || isPfx "ftps://".data url

/-- Hexadecimal digit (for the `%[0-9a-fA-F]{2}` regex). -/
def isHexDigitCh (c : Char) : Bool :=
  c.isDigit || ('a' ≤ c && c ≤ 'f') || ('A' ≤ c && c ≤ 'F')

/-- The regex `%[0-9a-fA-F]{2}` (`URL_ESCAPE.is_match`). -/
def hasUrlEscape : List Char → Bool
  | [] => false
  | c :: cs =>
    (c = '%' &&
      match cs with
      | a :: b :: _ => isHexDigitCh a && isHexDigitCh b
      | _ => false) ||
    hasUrlEscape cs

/-- The regex `^(\\\\|\w:)` (`REMOTE_FILE.is_match`): a UNC path or a drive
letter. -/
def remoteFileMatch (s : List Char) : Bool :=
  match s with
  | a :: b :: _ => (a = '\\' && b = '\\') || (wordChar a && b = ':')
  | _ => false

/-- Modelled from the spec (§4.A): `xmlwriter::escape_url` is not under
`src/`; per the spec, URLs get the additional escape set
``space " < > \ [ ] ` ^ { }`` percent-encoded, applied only when the input
does not already contain `%xx` escapes (that guard is in
`Hyperlink::initialize` itself). -/
def escape_url_char (c : Char) : List Char :=
  if c = ' ' then "%20".data
  else if c = Char.ofNat 34 then "%22".data
  else if c = '<' then "%3C".data
  else if c = '>' then "%3E".data
  else if c = '\\' then "%5C".data
  else if c = '[' then "%5B".data
  else if c = ']' then "%5D".data
  else if c = Char.ofNat 96 then "%60".data
  else if c = '^' then "%5E".data
  else if c = Char.ofNat 123 then "%7B".data
  else if c = Char.ofNat 125 then "%7D".data
  else [c]

/-- Modelled from the spec (§4.A): `xmlwriter::escape_url` on a string. -/
def escape_url (s : String) : String := String.mk (s.data.flatMap escape_url_char)

/-- `HyperlinkType`. -/
inductive HyperlinkType where
  | url : HyperlinkType
  | internal : HyperlinkType
  | file : HyperlinkType
  | unknown : HyperlinkType
  deriving DecidableEq

/-- `Hyperlink`. -/
structure Hyperlink where
  url : String
  text : String
  tip : String
  location : String
  link_type : HyperlinkType
  ref_id : Nat
  deriving DecidableEq

/-- `Hyperlink::initialize`: classify the URL by its prefix and normalize the
url/text/location fields.  Note that when no prefix matches, the link type is
left as `unknown` and no error is signalled. -/
def Hyperlink.initialize (h0 : Hyperlink) : Hyperlink :=
  let h :=
    if urlSchemeMatch h0.url.data then
      -- Web links (http/https/ftp/ftps).
      let h1 := { h0 with link_type := HyperlinkType.url }
      let h2 := if h1.text.isEmpty then { h1 with text := h1.url } else h1
      match splitHash h2.url.data with
      | (before, some anchor) =>
        { h2 with location := String.mk anchor, url := String.mk before }
      | (_, none) => h2
    else if isPfx "mailto:".data h0.url.data then
      -- Mail address links.
      let h1 := { h0 with link_type := HyperlinkType.url }
      if h1.text.isEmpty then
        { h1 with text := String.mk (removeFirst "mailto:".data h1.url.data) }
      else h1
    else if isPfx "internal:".data h0.url.data then
      -- Links to cells within the workbook.
      let h1 :=
        { h0 with
          link_type := HyperlinkType.internal
          location := String.mk (removeFirst "internal:".data h0.url.data) }
      if h1.text.isEmpty then { h1 with text := h1.location } else h1
    else if isPfx "file://".data h0.url.data then
      -- Links to other files.
      let h1 := { h0 with link_type := HyperlinkType.file }
      let bare_link := removeFirst "file://".data (removeFirst "file:///".data h1.url.data)
      let h2 :=
        if !remoteFileMatch bare_link then { h1 with url := String.mk bare_link } else h1
      let h3 := if h2.text.isEmpty then { h2 with text := String.mk bare_link } else h2
      match splitHash h3.url.data with
      | (before, some anchor) =>
        { h3 with location := String.mk anchor, url := String.mk before }
      | (_, none) => h3
    else h0
  if !hasUrlEscape h.url.data then { h with url := escape_url h.url } else h

/-- `Hyperlink::new`: build and classify a hyperlink, then length-check the
url, location and tip. -/
def Hyperlink.new (url text tip : String) : Except XlsxError Hyperlink :=
  let h :=
    Hyperlink.initialize
      { url := url, text := text, tip := tip, location := ""
        link_type := HyperlinkType.unknown, ref_id := 0 }
  if MAX_URL_LEN < h.url.length ∨ MAX_URL_LEN < h.location.length ∨
      MAX_PARAMETER_LEN < h.tip.length then
    Except.error XlsxError.MaxUrlLengthExceeded
  else Except.ok h

/-! ## The worksheet state

`HashMap<RowNum, HashMap<ColNum, CellType>>` is flattened to an association
list keyed by `(row, col)`: `insert_cell` writes through both levels, so the
two-level map is extensionally a map from cell coordinates to cells. -/

/-- The worksheet fields touched by the embedded write path. -/
structure Worksheet where
  table : List ((Nat × Nat) × CellType) := []
  dimensions : CellRange :=
    { first_row := ROW_MAX, first_col := COL_MAX, last_row := 0, last_col := 0 }
  merged_ranges : List CellRange := []
  merged_cells : List ((Nat × Nat) × Nat) := []
  xf_formats : List Format := [{}]
  xf_indices : List (Format × Nat) := [({}, 0)]
  has_hyperlink_style : Bool := false
  changed_rows : List (Nat × RowOptions) := []
  uses_string_table : Bool := false
  has_dynamic_arrays : Bool := false
  autofilter_defined_name : DefinedName := {}
  filter_conditions : List (Nat × FilterCondition) := []
  filter_automatic_off : Bool := false
  hyperlinks : List ((Nat × Nat) × Hyperlink) := []
  default_result : String := "0"
  use_future_functions : Bool := false
  deriving DecidableEq

/-- A fresh worksheet (`Worksheet::new`). -/
def Worksheet.new : Worksheet := {}

/-- The result type of a Rust `&mut self` method returning
`Result<&mut Worksheet, XlsxError>`: the error, if any, plus the (possibly
mutated) receiver. -/
abbrev WsResult := Option XlsxError × Worksheet

/-- Sequencing that models Rust's `?` on such methods: an error propagates
together with the state mutated so far. -/
def andThen (r : WsResult) (f : Worksheet → WsResult) : WsResult :=
  match r with
  | (some e, ws) => (some e, ws)
  | (none, ws) => f ws

/-- `Worksheet::check_dimensions`: range-check a cell and eagerly widen the
tracked min/max dimensions. -/
def Worksheet.check_dimensions (ws : Worksheet) (row col : Nat) : Bool × Worksheet :=
  if ROW_MAX ≤ row then (false, ws)
  else if COL_MAX ≤ col then (false, ws)
  else
    (true,
      { ws with
        dimensions :=
          { first_row := min ws.dimensions.first_row row
            first_col := min ws.dimensions.first_col col
            last_row := max ws.dimensions.last_row row
            last_col := max ws.dimensions.last_col col } })

/-- `Worksheet::check_dimensions_only`: the range check without the update. -/
def Worksheet.check_dimensions_only (_ws : Worksheet) (row col : Nat) : Bool :=
  ¬ ROW_MAX ≤ row ∧ ¬ COL_MAX ≤ col

/-- `Worksheet::format_index`: local dedup of formats by key. -/
def Worksheet.format_index (ws : Worksheet) (format : Format) : Nat × Worksheet :=
  match alGet format ws.xf_indices with
  | some xf_index => (xf_index, ws)
  | none =>
    let xf_index := ws.xf_formats.length
    (xf_index,
      { ws with
        xf_formats := ws.xf_formats ++ [format]
        xf_indices := (format, xf_index) :: ws.xf_indices
        has_hyperlink_style := ws.has_hyperlink_style || format.is_hyperlink })

/-- The optional-format index of the write methods (`None` means 0). -/
def Worksheet.opt_format_index (ws : Worksheet) (format : Option Format) :
    Nat × Worksheet :=
  match format with
  | some f => ws.format_index f
  | none => (0, ws)

/-- `Worksheet::insert_cell`. -/
def Worksheet.insert_cell (ws : Worksheet) (row col : Nat) (cell : CellType) :
    Worksheet :=
  { ws with table := ((row, col), cell) :: ws.table }

/-- The stored cell at a coordinate. -/
def Worksheet.cellAt (ws : Worksheet) (row col : Nat) : Option CellType :=
  alGet (row, col) ws.table

/-! ## The write path (worksheet.rs `store_*` / `write_*`) -/

/-- `Worksheet::store_blank` (= public `write_blank`). -/
def Worksheet.store_blank (ws : Worksheet) (row col : Nat) (format : Format) :
    WsResult :=
  let (ok, ws) := ws.check_dimensions row col
  if !ok then (some XlsxError.RowColumnLimitError, ws)
  else
    let (xf_index, ws) := ws.format_index format
    (none, ws.insert_cell row col (CellType.blank xf_index))

/-- `Worksheet::write_blank`. -/
def Worksheet.write_blank (ws : Worksheet) (row col : Nat) (format : Format) :
    WsResult :=
  ws.store_blank row col format

/-- `Worksheet::store_string`: the empty string is ignored (formatted empty
strings become blank cells); otherwise range-check, length-check, store a
`String` cell and flag shared-string usage. -/
def Worksheet.store_string (ws : Worksheet) (row col : Nat) (string : String)
    (format : Option Format) : WsResult :=
  if string.isEmpty then
    match format with
    | some f => ws.write_blank row col f
    | none => (none, ws)
  else
    let (ok, ws) := ws.check_dimensions row col
    if !ok then (some XlsxError.RowColumnLimitError, ws)
    else if MAX_STRING_LEN < string.length then
      (some XlsxError.MaxStringLengthExceeded, ws)
    else
      let (xf_index, ws) := ws.opt_format_index format
      (none,
        { ws.insert_cell row col (CellType.str string xf_index) with
          uses_string_table := true })

/-- `Worksheet::write_string`. -/
def Worksheet.write_string (ws : Worksheet) (row col : Nat) (string : String) :
    WsResult :=
  ws.store_string row col string none

/-- `Worksheet::write_string_with_format`. -/
def Worksheet.write_string_with_format (ws : Worksheet) (row col : Nat)
    (string : String) (format : Format) : WsResult :=
  ws.store_string row col string (some format)

/-- `Worksheet::store_number_type`: range-check; `NaN` is diverted to the
string `"#NUM!"` (with an early `return`); an infinity stores the string
`"#DIV/0"` but — unlike the NaN arm — the code does *not* return, so it falls
through and additionally inserts the numeric cell, overwriting the string it
just stored. -/
def Worksheet.store_number_type (ws : Worksheet) (row col : Nat) (number : F64)
    (format : Option Format) (is_datetime : Bool) : WsResult :=
  let (ok, ws) := ws.check_dimensions row col
  if !ok then (some XlsxError.RowColumnLimitError, ws)
  else if number.isNan then ws.store_string row col "#NUM!" none
  else
    andThen (if number.isInfinite then ws.store_string row col "#DIV/0" none
             else (none, ws)) fun ws =>
      let (xf_index, ws) := ws.opt_format_index format
      let cell :=
        if is_datetime then CellType.datetime number xf_index
        else CellType.number number xf_index
      (none, ws.insert_cell row col cell)

/-- `Worksheet::write_number`. -/
def Worksheet.write_number (ws : Worksheet) (row col : Nat) (number : F64) :
    WsResult :=
  ws.store_number_type row col number none false

/-- `Worksheet::write_number_with_format`. -/
def Worksheet.write_number_with_format (ws : Worksheet) (row col : Nat)
    (number : F64) (format : Format) : WsResult :=
  ws.store_number_type row col number (some format) false

/-- The cells of a rectangular range in row-major order (the iteration order
of the nested `for row { for col }` loops). -/
def rowColsOf (first_row first_col last_row last_col : Nat) : List (Nat × Nat) :=
  (List.range' first_row (last_row + 1 - first_row)).flatMap fun r =>
    (List.range' first_col (last_col + 1 - first_col)).map fun c => (r, c)

/-- The `store_array_formula` padding loop: write a zero (with the optional
format) into every cell of the range except the anchor.  The Rust code
`unwrap`s these writes (they cannot fail: the corners were range-checked), so
the embedded step keeps the state unconditionally. -/
def Worksheet.padArrayZeroes (format : Option Format) (first : Nat × Nat) :
    Worksheet → List (Nat × Nat) → Worksheet
  | ws, [] => ws
  | ws, rc :: rest =>
    if rc = first then ws.padArrayZeroes format first rest
    else
      let ws' :=
        match format with
        | some f => (ws.write_number_with_format rc.1 rc.2 (F64.finite 0) f).2
        | none => (ws.write_number rc.1 rc.2 (F64.finite 0)).2
      ws'.padArrayZeroes format first rest

/-- `Worksheet::store_array_formula`. -/
def Worksheet.store_array_formula (ws : Worksheet)
    (first_row first_col last_row last_col : Nat) (formula : String)
    (format : Option Format) (is_dynamic : Bool) : WsResult :=
  -- `||` short-circuits: the second corner check runs only if the first is in
  -- range (and hence has already widened the dimensions).
  let (ok1, ws) := ws.check_dimensions first_row first_col
  if !ok1 then (some XlsxError.RowColumnLimitError, ws)
  else
    let (ok2, ws) := ws.check_dimensions last_row last_col
    if !ok2 then (some XlsxError.RowColumnLimitError, ws)
    else if last_row < first_row ∨ last_col < first_col then
      (some XlsxError.RowColumnOrderError, ws)
    else
      let (xf_index, ws) := ws.opt_format_index format
      let formula := prepare_formula formula ws.use_future_functions
      let range := cell_range first_row first_col last_row last_col
      let is_dynamic := is_dynamic || is_dynamic_function formula
      let ws :=
        if is_dynamic then { ws with has_dynamic_arrays := true } else ws
      let cell :=
        CellType.arrayFormula formula xf_index ws.default_result is_dynamic range
      let ws := ws.insert_cell first_row first_col cell
      (none,
        ws.padArrayZeroes format (first_row, first_col)
          (rowColsOf first_row first_col last_row last_col))

/-- `Worksheet::store_formula`: dynamic-array formulas are transferred to
`store_array_formula` over the single anchor cell with `is_dynamic = true`. -/
def Worksheet.store_formula (ws : Worksheet) (row col : Nat) (formula : String)
    (format : Option Format) : WsResult :=
  if is_dynamic_function formula then
    ws.store_array_formula row col row col formula none true
  else
    let (ok, ws) := ws.check_dimensions row col
    if !ok then (some XlsxError.RowColumnLimitError, ws)
    else
      let (xf_index, ws) := ws.opt_format_index format
      let formula := prepare_formula formula ws.use_future_functions
      (none,
        ws.insert_cell row col (CellType.formula formula xf_index ws.default_result))

/-- `Worksheet::write_formula`. -/
def Worksheet.write_formula (ws : Worksheet) (row col : Nat) (formula : String) :
    WsResult :=
  ws.store_formula row col formula none

/-- `Worksheet::write_array_formula`. -/
def Worksheet.write_array_formula (ws : Worksheet)
    (first_row first_col last_row last_col : Nat) (formula : String) : WsResult :=
  ws.store_array_formula first_row first_col last_row last_col formula none false

/-- `Worksheet::store_url`: build/classify the hyperlink, write the link text
(with the caller's format, or the default hyperlink format), then record the
hyperlink. -/
def Worksheet.store_url (ws : Worksheet) (row col : Nat) (url text tip : String)
    (format : Option Format) : WsResult :=
  match Hyperlink.new url text tip with
  | Except.error e => (some e, ws)
  | Except.ok hyperlink =>
    let fmt :=
      match format with
      | some f => f
      | none => { is_hyperlink := true : Format }
    andThen (ws.write_string_with_format row col hyperlink.text fmt) fun ws =>
      (none, { ws with hyperlinks := ((row, col), hyperlink) :: ws.hyperlinks })

/-- `Worksheet::write_url`. -/
def Worksheet.write_url (ws : Worksheet) (row col : Nat) (string : String) :
    WsResult :=
  ws.store_url row col string "" "" none

/-- `Worksheet::write_url_with_text`. -/
def Worksheet.write_url_with_text (ws : Worksheet) (row col : Nat)
    (string text : String) : WsResult :=
  ws.store_url row col string text "" none

/-- `Worksheet::write_url_with_format`. -/
def Worksheet.write_url_with_format (ws : Worksheet) (row col : Nat)
    (string : String) (format : Format) : WsResult :=
  ws.store_url row col string "" "" (some format)

/-! ## Row options (worksheet.rs `set_row_height` / `set_row_hidden`) -/

/-- `Worksheet::set_row_hidden`. -/
def Worksheet.set_row_hidden (ws : Worksheet) (row : Nat) : WsResult :=
  let min_col :=
    if ws.dimensions.first_col ≠ COL_MAX then ws.dimensions.first_col else 0
  let (ok, ws) := ws.check_dimensions row min_col
  if !ok then (some XlsxError.RowColumnLimitError, ws)
  else
    let row_options :=
      match alGet row ws.changed_rows with
      | some ro => { ro with hidden := true }
      | none => { height := DEFAULT_ROW_HEIGHT, xf_index := 0, hidden := true }
    (none, { ws with changed_rows := (row, row_options) :: ws.changed_rows })

/-- `Worksheet::set_row_height`: height 0 means "hide the row"; otherwise the
row is range-checked (widening the dimensions with the leftmost known
column!) and its height recorded. -/
def Worksheet.set_row_height (ws : Worksheet) (row : Nat) (height : ℚ) : WsResult :=
  if height = 0 then ws.set_row_hidden row
  else
    let min_col :=
      if ws.dimensions.first_col ≠ COL_MAX then ws.dimensions.first_col else 0
    let (ok, ws) := ws.check_dimensions row min_col
    if !ok then (some XlsxError.RowColumnLimitError, ws)
    else
      let row_options :=
        match alGet row ws.changed_rows with
        | some ro => { ro with height := height }
        | none => { height := height, xf_index := 0, hidden := false }
      (none, { ws with changed_rows := (row, row_options) :: ws.changed_rows })

/-! ## Merged ranges (worksheet.rs `merge_range`) -/

/-- The padding loop of `merge_range`: formatted blanks over every cell of
the range except the first. -/
def Worksheet.padMergeBlanks (format : Format) (first : Nat × Nat) :
    Worksheet → List (Nat × Nat) → WsResult
  | ws, [] => (none, ws)
  | ws, rc :: rest =>
    if rc = first then ws.padMergeBlanks format first rest
    else
      andThen (ws.write_blank rc.1 rc.2 format) fun ws' =>
        ws'.padMergeBlanks format first rest

/-- The overlap scan of `merge_range`: walk the range in row-major order; a
cell already present in the merged-cells index aborts with
`MergeRangeOverlaps` (leaving the entries inserted so far in place), and
every clean cell is indexed under the prospective range id.  The Rust code
`unwrap`s the lookup of the previous range; in the states arising through
this API the stored index is always valid, and the embedded lookup falls back
to a default range. -/
def Worksheet.scanMergedCells (new_index : Nat) (range : CellRange) :
    Worksheet → List (Nat × Nat) → WsResult
  | ws, [] => (none, ws)
  | ws, rc :: rest =>
    match alGet rc ws.merged_cells with
    | some idx =>
      (some (XlsxError.MergeRangeOverlaps range.to_error_string
          ((ws.merged_ranges.getD idx
              { first_row := 0, first_col := 0, last_row := 0, last_col := 0 }).to_error_string)),
        ws)
    | none =>
      Worksheet.scanMergedCells new_index range
        { ws with merged_cells := (rc, new_index) :: ws.merged_cells } rest

/-- `Worksheet::merge_range`. -/
def Worksheet.merge_range (ws : Worksheet)
    (first_row first_col last_row last_col : Nat) (string : String)
    (format : Format) : WsResult :=
  let (ok1, ws) := ws.check_dimensions first_row first_col
  if !ok1 then (some XlsxError.RowColumnLimitError, ws)
  else
    let (ok2, ws) := ws.check_dimensions last_row last_col
    if !ok2 then (some XlsxError.RowColumnLimitError, ws)
    else if last_row < first_row ∨ last_col < first_col then
      (some XlsxError.RowColumnOrderError, ws)
    else if first_row = last_row ∧ first_col = last_col then
      (some XlsxError.MergeRangeSingleCell, ws)
    else
      andThen (ws.write_string_with_format first_row first_col string format)
        fun ws =>
      andThen (ws.padMergeBlanks format (first_row, first_col)
          (rowColsOf first_row first_col last_row last_col)) fun ws =>
        let range : CellRange :=
          { first_row := first_row, first_col := first_col
            last_row := last_row, last_col := last_col }
        let new_index := ws.merged_ranges.length
        andThen (ws.scanMergedCells new_index range
            (rowColsOf first_row first_col last_row last_col)) fun ws =>
          (none, { ws with merged_ranges := ws.merged_ranges ++ [range] })

/-! ## Autofilter (worksheet.rs `autofilter` / `filter_column` /
`hide_autofilter_rows`) -/

/-- `Worksheet::autofilter`. -/
def Worksheet.autofilter (ws : Worksheet)
    (first_row first_col last_row last_col : Nat) : WsResult :=
  if !(ws.check_dimensions_only first_row first_col) ∨
      !(ws.check_dimensions_only last_row last_col) then
    (some XlsxError.RowColumnLimitError, ws)
  else if last_row < first_row ∨ last_col < first_col then
    (some XlsxError.RowColumnOrderError, ws)
  else
    (none,
      { ws with
        autofilter_defined_name :=
          { in_use := true, first_row := first_row, first_col := first_col
            last_row := last_row, last_col := last_col }
        filter_conditions := [] })

/-- `Worksheet::filter_column`. -/
def Worksheet.filter_column (ws : Worksheet) (col : Nat)
    (filter_condition : FilterCondition) : WsResult :=
  if COL_MAX ≤ col then (some XlsxError.RowColumnLimitError, ws)
  else if !ws.autofilter_defined_name.in_use then
    (some (XlsxError.ParameterError
      "The 'autofilter()' range must be set before a 'filter_condition' can be applied."), ws)
  else if col < ws.autofilter_defined_name.first_col ∨
      ws.autofilter_defined_name.last_col < col then
    (some (XlsxError.ParameterError "Col outside user defined autofilter column range"), ws)
  else if filter_condition.list.isEmpty ∧ filter_condition.custom1 = none ∧
      !filter_condition.should_match_blanks then
    (some (XlsxError.ParameterError
      "The 'filter_condition' doesn't have a data value or condition set."), ws)
  else
    (none, { ws with filter_conditions := (col, filter_condition) :: ws.filter_conditions })

/-- Rust `str::to_lowercase` restricted to the simple one-to-one case
mapping (`Char.toLower`); the claims only exercise ASCII data, where the two
coincide. -/
def rustLower (s : String) : String := String.mk (s.data.map Char.toLower)

/-- Rust `str::trim`: strip whitespace from both ends. -/
def rustTrim (s : String) : String :=
  String.mk (((s.data.dropWhile Char.isWhitespace).reverse.dropWhile
    Char.isWhitespace).reverse)

/-- `Worksheet::row_matches_list_filter`: string cells (and the raw text of
rich strings) compare trimmed and lower-cased against the string literals;
number cells compare with IEEE equality against the number literals; blank
cells, whitespace-only strings and missing cells match when the condition's
match-blanks flag is set; other cell types never match. -/
def Worksheet.row_matches_list_filter (ws : Worksheet) (row_num col_num : Nat)
    (filter_condition : FilterCondition) : Bool :=
  match ws.cellAt row_num col_num with
  | some (CellType.str s _) =>
    let cell_string := rustTrim (rustLower s)
    filter_condition.list.any
        (fun f => cell_string = rustTrim (rustLower f.string)) ||
      (filter_condition.should_match_blanks && cell_string.isEmpty)
  | some (CellType.richString _ _ raw) =>
    let cell_string := rustTrim (rustLower raw)
    filter_condition.list.any
        (fun f => cell_string = rustTrim (rustLower f.string)) ||
      (filter_condition.should_match_blanks && cell_string.isEmpty)
  | some (CellType.number n _) =>
    filter_condition.list.any
      (fun f => f.data_type = FilterDataType.number && n.ieeeEq f.number)
  | some (CellType.blank _) => filter_condition.should_match_blanks
  | some _ => false
  | none => filter_condition.should_match_blanks

/-- The per-column row walk of `hide_autofilter_rows`.  The custom-filter
branch (`row_matches_custom_filters`) is outside the claims under
verification and is embedded as a no-op; no theorem below quantifies over a
non-list filter condition. -/
def Worksheet.hideRowsForColumn (fc : FilterCondition) (col_num : Nat) :
    Worksheet → List Nat → Worksheet
  | ws, [] => ws
  | ws, row :: rest =>
    let ws' :=
      if fc.is_list_filter then
        if !ws.row_matches_list_filter row col_num fc then
          (ws.set_row_hidden row).2
        else ws
      else ws
    Worksheet.hideRowsForColumn fc col_num ws' rest

/-- `Worksheet::hide_autofilter_rows`: for each filtered column, hide every
data row of the filter range (strictly after the header row) that does not
match the column's condition.  The `HashMap` key iteration is embedded as the
deduplicated insertion-order key list (hiding is monotone per row, so key
order does not affect the final hidden flags). -/
def Worksheet.hide_autofilter_rows (ws : Worksheet) : Worksheet :=
  if ws.filter_conditions.isEmpty || ws.filter_automatic_off then ws
  else
    let first_row := ws.autofilter_defined_name.first_row + 1
    let last_row := ws.autofilter_defined_name.last_row
    let rows := List.range' first_row (last_row + 1 - first_row)
    let cols := (ws.filter_conditions.map Prod.fst).dedup
    cols.foldl
      (fun ws col =>
        match alGet col ws.filter_conditions with
        | some fc => ws.hideRowsForColumn fc col rows
        | none => ws)
      ws

/-! ## Emission fragments (worksheet.rs `write_dimension`,
`write_array_formula_cell`, `write_merge_cells`) -/

/-- The `ref` attribute of the `<dimension>` element
(`Worksheet::write_dimension`): `A1` while the tracked dimensions still hold
their initial out-of-band values, otherwise the tracked range. -/
def Worksheet.dimension_ref (ws : Worksheet) : String :=
  if ws.dimensions.first_row ≠ ROW_MAX ∨ ws.dimensions.first_col ≠ COL_MAX ∨
      ws.dimensions.last_row ≠ 0 ∨ ws.dimensions.last_col ≠ 0 then
    cell_range ws.dimensions.first_row ws.dimensions.first_col
      ws.dimensions.last_row ws.dimensions.last_col
  else "A1"

/-- The `ref` attributes of the emitted `<mergeCell>` elements
(`Worksheet::write_merge_cells` iterates `merged_ranges` in order). -/
def Worksheet.merge_cell_refs (ws : Worksheet) : List String :=
  ws.merged_ranges.map CellRange.to_range_string

/-- Modelled from the Rust standard library: `str::parse::<f64>()` succeeds
on an optional sign followed by `inf`/`infinity`/`nan` (case-insensitive) or
a decimal significand (at least one digit, optional fraction) with an
optional exponent.  The emitter only uses the success/failure of the parse. -/
def parsesF64 (s : String) : Bool :=
  match s.data with
  | [] => false
  | c :: rest =>
    let cs := if c = '+' || c = '-' then rest else c :: rest
    let low := cs.map Char.toLower
    if low = "inf".data || low = "infinity".data || low = "nan".data then true
    else
      let d1 := cs.takeWhile Char.isDigit
      let r1 := cs.dropWhile Char.isDigit
      let (d2, r2) :=
        match r1 with
        | '.' :: r => (r.takeWhile Char.isDigit, r.dropWhile Char.isDigit)
        | _ => (([] : List Char), r1)
      if d1.isEmpty && d2.isEmpty then false
      else
        match r2 with
        | [] => true
        | e :: r =>
          if e = 'e' || e = 'E' then
            let r' :=
              match r with
              | c' :: rr => if c' = '+' || c' = '-' then rr else c' :: rr
              | [] => r
            !r'.isEmpty && r'.all Char.isDigit
          else false

/-- Modelled from the spec (§4.A): `xmlwriter::escape_data` is not under
`src/`; element text is XML-escaped. -/
def escape_data_char (c : Char) : List Char :=
  if c = '&' then "&amp;".data
  else if c = '<' then "&lt;".data
  else if c = '>' then "&gt;".data
  else if c = Char.ofNat 34 then "&quot;".data
  else if c = Char.ofNat 39 then "&apos;".data
  else [c]

/-- Modelled from the spec (§4.A): `xmlwriter::escape_data` on a string. -/
def escape_data (s : String) : String := String.mk (s.data.flatMap escape_data_char)

/-- `Worksheet::write_array_formula_cell`: the emitted `<c>` element of an
array-formula cell.  Note where each attribute lands: `s=`, `cm=` and `t=`
are attributes of `<c>`; the `<f>` element carries only `t="array"` and
`ref=`. -/
def write_array_formula_cell (row col : Nat) (formula : String) (xf_index : Nat)
    (result : String) (is_dynamic : Bool) (range : String) : String :=
  let col_name := col_to_name col
  let style :=
    if 0 < xf_index then " s=\"" ++ toString xf_index ++ "\"" else ""
  let cm := if is_dynamic then " cm=\"1\"" else ""
  let result_type := if !parsesF64 result then " t=\"str\"" else ""
  "<c r=\"" ++ col_name ++ toString (row + 1) ++ "\"" ++ style ++ cm ++
    result_type ++ "><f t=\"array\" ref=\"" ++ range ++ "\">" ++
    escape_data formula ++ "</f><v>" ++ escape_data result ++ "</v></c>"

/-- The emitted `<c>` element for the cell stored at `(row, col)` when it is
an array formula (the `ArrayFormula` arm of the cell dispatch in
`write_data_table`, with no row/column format fall-back in play). -/
def Worksheet.emit_array_formula_at (ws : Worksheet) (row col : Nat) :
    Option String :=
  match ws.cellAt row col with
  | some (CellType.arrayFormula formula xf_index result is_dynamic range) =>
    some (write_array_formula_cell row col formula xf_index result is_dynamic range)
  | _ => none

/-! ## The caller-operation universe (for the dimension-tracking claim)

A reachable worksheet state is the fold of a list of successful public
operations over a fresh worksheet.  The universe below is the modelled part
of the public write API. -/

/-- One public mutating operation. -/
inductive Op where
  | writeNumber (row col : Nat) (n : F64) : Op
  | writeNumberFmt (row col : Nat) (n : F64) (f : Format) : Op
  | writeString (row col : Nat) (s : String) : Op
  | writeStringFmt (row col : Nat) (s : String) (f : Format) : Op
  | writeBlank (row col : Nat) (f : Format) : Op
  | writeFormula (row col : Nat) (s : String) : Op
  | writeArrayFormula (fr fc lr lc : Nat) (s : String) : Op
  | mergeRange (fr fc lr lc : Nat) (s : String) (f : Format) : Op
  | writeUrl (row col : Nat) (url : String) : Op
  | setRowHeight (row : Nat) (h : ℚ) : Op
  | setRowHidden (row : Nat) : Op
  | setAutofilter (fr fc lr lc : Nat) : Op
  | setFilterColumn (col : Nat) (fc : FilterCondition) : Op

/-- Apply one operation. -/
def Op.apply (ws : Worksheet) : Op → WsResult
  | Op.writeNumber row col n => ws.write_number row col n
  | Op.writeNumberFmt row col n f => ws.write_number_with_format row col n f
  | Op.writeString row col s => ws.write_string row col s
  | Op.writeStringFmt row col s f => ws.write_string_with_format row col s f
  | Op.writeBlank row col f => ws.write_blank row col f
  | Op.writeFormula row col s => ws.write_formula row col s
  | Op.writeArrayFormula fr fc lr lc s => ws.write_array_formula fr fc lr lc s
  | Op.mergeRange fr fc lr lc s f => ws.merge_range fr fc lr lc s f
  | Op.writeUrl row col url => ws.write_url row col url
  | Op.setRowHeight row h => ws.set_row_height row h
  | Op.setRowHidden row => ws.set_row_hidden row
  | Op.setAutofilter fr fc lr lc => ws.autofilter fr fc lr lc
  | Op.setFilterColumn col fc => ws.filter_column col fc

/-- Apply a list of operations, requiring every one to succeed. -/
def applyOps (ws : Worksheet) : List Op → Option Worksheet
  | [] => some ws
  | op :: rest =>
    match Op.apply ws op with
    | (none, ws') => applyOps ws' rest
    | (some _, _) => none

/-- The initial (out-of-band) dimension tracker. -/
def initDimensions : CellRange :=
  { first_row := ROW_MAX, first_col := COL_MAX, last_row := 0, last_col := 0 }

/-- Widen a dimension tracker by one cell position (the update half of
`check_dimensions`). -/
def expandPoint (d : CellRange) (p : Nat × Nat) : CellRange :=
  { first_row := min d.first_row p.1, first_col := min d.first_col p.2
    last_row := max d.last_row p.1, last_col := max d.last_col p.2 }

/-- Widen by a list of positions. -/
def expandPoints (ps : List (Nat × Nat)) (d : CellRange) : CellRange :=
  ps.foldl expandPoint d

/-- The dimension positions recorded by one successful operation: cell writes
record the written cell (range writes: the two corners), row-option calls
record the row paired with the leftmost column seen so far (or column 0 when
no column is known yet), and the autofilter calls record nothing. -/
def dimPointsOf (ws : Worksheet) : Op → List (Nat × Nat)
  | Op.writeNumber row col _ => [(row, col)]
  | Op.writeNumberFmt row col _ _ => [(row, col)]
  | Op.writeString row col s => if s.isEmpty then [] else [(row, col)]
  | Op.writeStringFmt row col _ _ => [(row, col)]
  | Op.writeBlank row col _ => [(row, col)]
  | Op.writeFormula row col _ => [(row, col)]
  | Op.writeArrayFormula fr fc lr lc _ => [(fr, fc), (lr, lc)]
  | Op.mergeRange fr fc lr lc _ _ => [(fr, fc), (lr, lc)]
  | Op.writeUrl row col _ => [(row, col)]
  | Op.setRowHeight row _ =>
    [(row, if ws.dimensions.first_col ≠ COL_MAX then ws.dimensions.first_col else 0)]
  | Op.setRowHidden row =>
    [(row, if ws.dimensions.first_col ≠ COL_MAX then ws.dimensions.first_col else 0)]
  | Op.setAutofilter _ _ _ _ => []
  | Op.setFilterColumn _ _ => []

/-- All dimension positions recorded along a successful trace. -/
def tracePoints (ws : Worksheet) : List Op → List (Nat × Nat)
  | [] => []
  | op :: rest =>
    match Op.apply ws op with
    | (none, ws') => dimPointsOf ws op ++ tracePoints ws' rest
    | (some _, _) => []

/-! ## Concrete autofilter scenario (spec §8, scenario 6) -/

/-- Header plus `{East, West, East, North, South, West}` in rows 1..6 of
column 0. -/
def regionData : Worksheet :=
  (((((((Worksheet.new.write_string 0 0 "Region").2.write_string 1 0
    "East").2.write_string 2 0 "West").2.write_string 3 0
    "East").2.write_string 4 0 "North").2.write_string 5 0
    "South").2.write_string 6 0 "West").2

/-- The list filter `["East"]`. -/
def eastFilter : FilterCondition :=
  { is_list_filter := true
    list := [{ data_type := FilterDataType.string, string := "East",
               number := F64.finite 0 }]
    should_match_blanks := false
    custom1 := none }

/-- The scenario worksheet with the autofilter range and condition applied,
before the row-hiding pass. -/
def regionReady : Worksheet :=
  ((regionData.autofilter 0 0 6 1).2.filter_column 0 eastFilter).2

/-- The scenario worksheet after the row-hiding pass. -/
def regionFiltered : Worksheet := regionReady.hide_autofilter_rows

/-! # Theorems

General helper lemmas first, then one theorem (plus counterexample/witness)
per claim. -/

/-! ## Substring lemmas -/

theorem isPfx_trans {n m x : List Char} (h1 : isPfx n m = true)
    (h2 : isPfx m x = true) : isPfx n x = true := by
  induction n generalizing m x with
  | nil => simp [isPfx]
  | cons c cs ih =>
    cases m with
    | nil => simp [isPfx] at h1
    | cons d ds =>
      cases x with
      | nil => simp [isPfx] at h2
      | cons e es =>
        simp only [isPfx, Bool.and_eq_true, decide_eq_true_eq] at h1 h2 ⊢
        exact ⟨h1.1.trans h2.1, ih h1.2 h2.2⟩

theorem isPfx_self_append (n ys : List Char) : isPfx n (n ++ ys) = true := by
  induction n with
  | nil => simp [isPfx]
  | cons c cs ih => simp [isPfx, ih]

theorem containsSub_cons (n : List Char) (c : Char) (cs : List Char)
    (h : containsSub n cs = true) : containsSub n (c :: cs) = true := by
  simp [containsSub, h]

theorem containsSub_of_isPfx {n xs : List Char} (h : isPfx n xs = true) :
    containsSub n xs = true := by
  cases xs with
  | nil => simpa [containsSub] using h
  | cons c cs => simp [containsSub, h]

theorem containsSub_mono {n m : List Char} (hnm : isPfx n m = true) :
    ∀ x : List Char, containsSub m x = true → containsSub n x = true := by
  intro x
  induction x with
  | nil =>
    intro h
    simp only [containsSub] at h ⊢
    exact isPfx_trans hnm h
  | cons c cs ih =>
    intro h
    simp only [containsSub, Bool.or_eq_true] at h ⊢
    rcases h with h | h
    · exact Or.inl (isPfx_trans hnm h)
    · exact Or.inr (ih h)

/-! ## Scanner lemmas (for the formula preprocessor) -/

theorem scanRepl_eq_or_contains (names : List (List Char)) (pfx : List Char) :
    ∀ (cs : List Char) (atB : Bool),
      scanRepl names pfx 0 atB cs = cs ∨
        containsSub pfx (scanRepl names pfx 0 atB cs) = true := by
  intro cs
  induction cs with
  | nil => intro atB; left; rfl
  | cons c cs ih =>
    intro atB
    by_cases hb : atB
    · subst hb
      cases hm : tryMatch names (c :: cs) with
      | some p =>
        rcases p with ⟨nm, rest⟩
        right
        simp only [scanRepl, if_true, hm]
        rw [List.append_assoc]
        exact containsSub_of_isPfx (isPfx_self_append pfx _)
      | none =>
        simp only [scanRepl, if_true, hm]
        rcases ih (!wordChar c) with h | h
        · left; rw [h]
        · right; exact containsSub_cons _ _ _ h
    · simp only [Bool.not_eq_true] at hb
      subst hb
      simp only [scanRepl, if_false, Bool.false_eq_true]
      rcases ih (!wordChar c) with h | h
      · left; rw [h]
      · right; exact containsSub_cons _ _ _ h

theorem expandPipeline_eq_of_not_contains (exp : Bool) (s : List Char)
    (h : containsSub xlfnLit (expandPipeline exp s) = false) :
    expandPipeline exp s = s := by
  have hxlws : isPfx xlfnLit "_xlfn._xlws.".data = true := by decide
  have hself : isPfx xlfnLit "_xlfn.".data = true := by decide
  unfold expandPipeline at h ⊢
  cases exp with
  | false =>
    simp only [if_false, Bool.false_eq_true] at h ⊢
    have h2 := scanRepl_eq_or_contains xlwsFnNames "_xlfn._xlws.".data
      (escape_dynamic_formulas1 s) true
    rcases h2 with h2 | h2
    · -- second stage did nothing
      unfold escape_dynamic_formulas2 at h ⊢
      rw [h2] at h ⊢
      have h1 := scanRepl_eq_or_contains xlfnFnNames "_xlfn.".data s true
      rcases h1 with h1 | h1
      · unfold escape_dynamic_formulas1 at h ⊢
        rw [h1]
      · unfold escape_dynamic_formulas1 at h
        rw [(containsSub_mono hself _ h1 : _)] at h
        cases h
    · unfold escape_dynamic_formulas2 at h
      rw [containsSub_mono hxlws _ h2] at h
      cases h
  | true =>
    simp only [if_true] at h ⊢
    have h3 := scanRepl_eq_or_contains futureFnNames "_xlfn.".data
      (escape_dynamic_formulas2 (escape_dynamic_formulas1 s)) true
    rcases h3 with h3 | h3
    · unfold escape_future_functions at h ⊢
      rw [h3] at h ⊢
      have h2 := scanRepl_eq_or_contains xlwsFnNames "_xlfn._xlws.".data
        (escape_dynamic_formulas1 s) true
      rcases h2 with h2 | h2
      · unfold escape_dynamic_formulas2 at h ⊢
        rw [h2] at h ⊢
        have h1 := scanRepl_eq_or_contains xlfnFnNames "_xlfn.".data s true
        rcases h1 with h1 | h1
        · unfold escape_dynamic_formulas1 at h ⊢
          rw [h1]
        · unfold escape_dynamic_formulas1 at h
          rw [(containsSub_mono hself _ h1 : _)] at h
          cases h
      · unfold escape_dynamic_formulas2 at h
        rw [containsSub_mono hxlws _ h2] at h
        cases h
    · unfold escape_future_functions at h
      rw [containsSub_mono hself _ h3] at h
      cases h

theorem stripArrayBraces_eq_self {x : List Char}
    (h1 : x.head? ≠ some lbrace) (h2 : x.head? ≠ some '=')
    (h3 : x.getLast? ≠ some rbrace) : stripArrayBraces x = x := by
  unfold stripArrayBraces
  simp only [if_neg h1, if_neg h2, if_neg h3]

/-! ## Claim C6: idempotence of the formula preprocessor -/

/-- Claim C6 (counterexample): `prepare` is not idempotent on every input
string: on `"==1+1"` the first application strips only one leading `=`, and
a second application strips the other. -/
theorem c6_prepare_not_idempotent :
    prepare_formula (prepare_formula "==1+1" false) false ≠
        prepare_formula "==1+1" false ∧
      prepare_formula "==1+1" false = "=1+1" ∧
      prepare_formula (prepare_formula "==1+1" false) false = "1+1" := by
  refine ⟨?_, by decide, by decide⟩
  decide

/-- Claim C6 (as amended): the formula preprocessor is idempotent on every
input whose prepared form does not itself begin with a stray `{` or `=` and
does not end with a stray `}` (the stripping steps remove at most one each,
so only inputs with doubled wrappers escape them). -/
theorem c6_prepare_formula_idempotent (f : String) (exp : Bool)
    (h1 : (prepare_formula f exp).data.head? ≠ some lbrace)
    (h2 : (prepare_formula f exp).data.head? ≠ some '=')
    (h3 : (prepare_formula f exp).data.getLast? ≠ some rbrace) :
    prepare_formula (prepare_formula f exp) exp = prepare_formula f exp := by
  have hdata : (prepare_formula f exp).data = prepareFormulaChars f.data exp := rfl
  rw [hdata] at h1 h2 h3
  show String.mk (prepareFormulaChars (prepareFormulaChars f.data exp) exp) =
    String.mk (prepareFormulaChars f.data exp)
  congr 1
  have hstrip := stripArrayBraces_eq_self h1 h2 h3
  conv_lhs => rw [prepareFormulaChars]
  rw [hstrip]
  by_cases hc : containsSub xlfnLit (prepareFormulaChars f.data exp) = true
  · rw [if_pos hc]
  · rw [if_neg hc]
    -- The first application either returned the stripped input because it
    -- already contained `_xlfn.`, or ran the expansion pipeline.
    rw [prepareFormulaChars] at hc ⊢
    by_cases hc0 : containsSub xlfnLit (stripArrayBraces f.data) = true
    · rw [if_pos hc0] at hc
      exact absurd hc0 hc
    · rw [if_neg hc0] at hc ⊢
      have hpipe := expandPipeline_eq_of_not_contains exp (stripArrayBraces f.data)
        (Bool.not_eq_true _ ▸ hc)
      rw [hpipe]
      exact hpipe

/-- Claim C6 (witness): the amended idempotence theorem applied to the
concrete formula `"=UNIQUE(A2:A10)"`. -/
theorem c6_prepare_formula_idempotent_witness :
    ((prepare_formula "=UNIQUE(A2:A10)" false).data.head? ≠ some lbrace ∧
        (prepare_formula "=UNIQUE(A2:A10)" false).data.head? ≠ some '=' ∧
        (prepare_formula "=UNIQUE(A2:A10)" false).data.getLast? ≠ some rbrace) ∧
      prepare_formula (prepare_formula "=UNIQUE(A2:A10)" false) false =
        prepare_formula "=UNIQUE(A2:A10)" false :=
  ⟨⟨by decide, by decide, by decide⟩,
    c6_prepare_formula_idempotent "=UNIQUE(A2:A10)" false (by decide) (by decide)
      (by decide)⟩

/-! ## Claim C2: NaN and infinity writes -/

/-- Claim C2 (code bug, evaluated at the failing input): writing `NaN`
stores the string `"#NUM!"` and succeeds as claimed, and writing `±∞`
succeeds, but the final cell for `±∞` is the numeric infinity, not the
string `"#DIV/0"`: the infinity arm of `store_number_type` stores the string
and then — missing the `return` the NaN arm has — falls through and inserts
the numeric cell over it. -/
theorem c2_nan_and_infinity_cells :
    (Worksheet.new.write_number 0 0 F64.nan).1 = none ∧
    (Worksheet.new.write_number 0 0 F64.nan).2.cellAt 0 0 =
      some (CellType.str "#NUM!" 0) ∧
    (Worksheet.new.write_number 0 0 F64.posInf).1 = none ∧
    (Worksheet.new.write_number 0 0 F64.posInf).2.cellAt 0 0 =
      some (CellType.number F64.posInf 0) ∧
    (Worksheet.new.write_number 0 0 F64.negInf).1 = none ∧
    (Worksheet.new.write_number 0 0 F64.negInf).2.cellAt 0 0 =
      some (CellType.number F64.negInf 0) := by
  refine ⟨by decide, by decide, by decide, by decide, by decide, by decide⟩

/-! ## Claim C3: URL scheme classification -/

/-- Claim C3 (code bug, evaluated at the failing input): a URL whose prefix
matches no supported scheme is *not* rejected with `UnknownUrlType` —
`Hyperlink::new` leaves the link type `Unknown` and returns `Ok`, and
`write_url` succeeds, storing the unclassified hyperlink.  URLs with a
supported prefix are classified as external URL, external file, or internal
location, as claimed. -/
theorem c3_unknown_url_scheme_not_rejected :
    (Hyperlink.new "slack://channel" "" "").isOk = true ∧
    (Hyperlink.new "slack://channel" "" "").toOption.map Hyperlink.link_type =
      some HyperlinkType.unknown ∧
    (Worksheet.new.write_url 0 0 "slack://channel").1 = none ∧
    ((Worksheet.new.write_url 0 0 "slack://channel").2.hyperlinks.map
      (fun p => p.2.link_type)) = [HyperlinkType.unknown] ∧
    (Hyperlink.new "http://a.com" "" "").toOption.map Hyperlink.link_type =
      some HyperlinkType.url ∧
    (Hyperlink.new "https://a.com" "" "").toOption.map Hyperlink.link_type =
      some HyperlinkType.url ∧
    (Hyperlink.new "ftp://a.com" "" "").toOption.map Hyperlink.link_type =
      some HyperlinkType.url ∧
    (Hyperlink.new "ftps://a.com" "" "").toOption.map Hyperlink.link_type =
      some HyperlinkType.url ∧
    (Hyperlink.new "mailto:jmcnamara@cpan.org" "" "").toOption.map Hyperlink.link_type =
      some HyperlinkType.url ∧
    (Hyperlink.new "file:///tmp/book.xlsx" "" "").toOption.map Hyperlink.link_type =
      some HyperlinkType.file ∧
    (Hyperlink.new "internal:Sheet1!A1" "" "").toOption.map Hyperlink.link_type =
      some HyperlinkType.internal := by
  refine ⟨by decide, by decide, by decide, by decide, by decide, by decide,
    by decide, by decide, by decide, by decide, by decide⟩

/-! ## Claim C5: datetime serial conversion -/

/-- Claim C5: the serial value is days since 1899-12-31 plus
milliseconds-in-day over 86,400,000, with one extra day added exactly when
the day count exceeds 59; in particular 1900-02-28 converts to 59 and
1900-03-01 to 61, date-only conversions are integers, and time-only
conversions lie in `[0, 1)`. -/
theorem c5_datetime_serial :
    (∀ (y : Int) (m d ms : Nat),
      datetime_to_excel y m d ms =
        ((excelDays y m d : ℚ) + (if 59 < excelDays y m d then 1 else 0)) +
          (ms : ℚ) / (MS_PER_DAY : ℚ)) ∧
    date_to_excel 1900 2 28 = 59 ∧
    date_to_excel 1900 3 1 = 61 ∧
    (∀ (y : Int) (m d : Nat), ∃ z : Int, date_to_excel y m d = (z : ℚ)) ∧
    (∀ ms : Nat, ms < MS_PER_DAY → 0 ≤ time_to_excel ms ∧ time_to_excel ms < 1) := by
  refine ⟨?_, ?_, ?_, ?_, ?_⟩
  · intro y m d ms
    unfold datetime_to_excel date_to_excel time_to_excel
    dsimp only
    rcases lt_or_le 59 (excelDays y m d) with h | h
    · rw [if_pos h, if_pos h]; push_cast; ring
    · rw [if_neg (not_lt.mpr h), if_neg (not_lt.mpr h)]; ring
  · have h : excelDays 1900 2 28 = 59 := by decide
    rw [date_to_excel, h]
    norm_num
  · have h : excelDays 1900 3 1 = 60 := by decide
    rw [date_to_excel, h]
    norm_num
  · intro y m d
    exact ⟨if 59 < excelDays y m d then excelDays y m d + 1 else excelDays y m d, rfl⟩
  · intro ms hms
    constructor
    · unfold time_to_excel
      positivity
    · rw [time_to_excel, div_lt_one (by norm_num [MS_PER_DAY])]
      exact_mod_cast hms

/-- Claim C5 (witness): the time-fraction bound applied at a concrete
millisecond count, together with the concrete serial equation for noon on
2023-01-01 (the value quoted in the source comments). -/
theorem c5_datetime_serial_witness :
    (1000 < MS_PER_DAY ∧ 0 ≤ time_to_excel 1000 ∧ time_to_excel 1000 < 1) ∧
      datetime_to_excel 2023 1 1 43200000 = 44927 + (1 : ℚ) / 2 :=
  ⟨⟨by decide, c5_datetime_serial.2.2.2.2 1000 (by decide)⟩, by
    have h : excelDays 2023 1 1 = 44926 := by decide
    have h59 : (59 : Int) < 44926 := by decide
    rw [datetime_to_excel, date_to_excel, h, if_pos h59, time_to_excel]
    norm_num [MS_PER_DAY]⟩

/-! ## Claim C9: empty-string writes -/

/-- The local format dedup is independent of the tracked dimensions. -/
theorem format_index_set_dims (ws : Worksheet) (d : CellRange) (f : Format) :
    Worksheet.format_index { ws with dimensions := d } f =
      ((ws.format_index f).1, { (ws.format_index f).2 with dimensions := d }) := by
  unfold Worksheet.format_index
  cases h : alGet f ws.xf_indices <;> simp [h]

/-- Claim C9: writing the empty string without a format is a silent no-op
(`Ok`, state untouched); writing it with a format is exactly `write_blank`,
which stores a `Blank` cell (not a `String` cell) with the format's local
index; neither path touches the shared-string-table flag. -/
theorem c9_empty_string_write (ws : Worksheet) (row col : Nat) (f : Format)
    (hr : row < ROW_MAX) (hc : col < COL_MAX) :
    ws.write_string row col "" = (none, ws) ∧
    ws.write_string_with_format row col "" f = ws.write_blank row col f ∧
    (ws.write_string_with_format row col "" f).1 = none ∧
    (ws.write_string_with_format row col "" f).2.cellAt row col =
      some (CellType.blank (ws.format_index f).1) ∧
    (ws.write_string_with_format row col "" f).2.uses_string_table =
      ws.uses_string_table := by
  refine ⟨rfl, rfl, ?_, ?_, ?_⟩ <;>
  · simp only [Worksheet.write_string_with_format, Worksheet.store_string,
      Worksheet.write_blank, Worksheet.store_blank, Worksheet.check_dimensions,
      String.isEmpty_iff, if_pos rfl, if_neg (Nat.not_le.mpr hr),
      if_neg (Nat.not_le.mpr hc), format_index_set_dims]
    simp [Worksheet.insert_cell, Worksheet.cellAt, alGet,
      Worksheet.format_index]
    try (cases h : alGet f ws.xf_indices <;> simp [h])

/-- Claim C9 (witness): the empty-string semantics at a concrete worksheet,
cell and format. -/
theorem c9_empty_string_write_witness :
    (0 < ROW_MAX ∧ 0 < COL_MAX) ∧
      (Worksheet.new.write_string 0 0 "" = (none, Worksheet.new) ∧
        Worksheet.new.write_string_with_format 0 0 ""
            { appearance := 7, is_hyperlink := false } =
          Worksheet.new.write_blank 0 0 { appearance := 7, is_hyperlink := false } ∧
        (Worksheet.new.write_string_with_format 0 0 ""
            { appearance := 7, is_hyperlink := false }).1 = none ∧
        (Worksheet.new.write_string_with_format 0 0 ""
              { appearance := 7, is_hyperlink := false }).2.cellAt 0 0 =
          some (CellType.blank
            (Worksheet.new.format_index { appearance := 7, is_hyperlink := false }).1) ∧
        (Worksheet.new.write_string_with_format 0 0 ""
              { appearance := 7, is_hyperlink := false }).2.uses_string_table =
          Worksheet.new.uses_string_table) :=
  ⟨⟨by decide, by decide⟩,
    c9_empty_string_write Worksheet.new 0 0 { appearance := 7, is_hyperlink := false }
      (by decide) (by decide)⟩

/-! ## Claim C1: dynamic-array promotion and the `cm` attribute -/

/-- Claim C1 (counterexample): on `write_formula(0, 0, "=UNIQUE(A2:A10)")`
the emitted cell carries `cm="1"` as an attribute of the `<c>` element; the
`<f t="array" ref="A1" cm="1">` element the claim requires does not occur in
the emitted text. -/
theorem c1_cm_attribute_counterexample :
    (Worksheet.new.write_formula 0 0 "=UNIQUE(A2:A10)").2.emit_array_formula_at 0 0 =
      some "<c r=\"A1\" cm=\"1\"><f t=\"array\" ref=\"A1\">_xlfn.UNIQUE(A2:A10)</f><v>0</v></c>" ∧
    containsSub "<f t=\"array\" ref=\"A1\" cm=\"1\">".data
      "<c r=\"A1\" cm=\"1\"><f t=\"array\" ref=\"A1\">_xlfn.UNIQUE(A2:A10)</f><v>0</v></c>".data
      = false := by
  refine ⟨by decide, by decide⟩

/-- Claim C1 (as amended): `write_formula(0,0,"=UNIQUE(A2:A10)")` promotes
the cell to a single-cell dynamic array formula (body
`_xlfn.UNIQUE(A2:A10)`, cached result `"0"`, range `"A1"`,
`is_dynamic = true`), sets the worksheet dynamic-array flag, and emits
exactly `<c r="A1" cm="1"><f t="array" ref="A1">_xlfn.UNIQUE(A2:A10)</f><v>0</v></c>`
— with `cm="1"` among the `<c>` attributes; in general the emission of a
dynamic array-formula cell differs from the non-dynamic emission of the same
cell exactly by the insertion of ` cm="1"` at that position. -/
theorem c1_dynamic_array_promotion :
    ((Worksheet.new.write_formula 0 0 "=UNIQUE(A2:A10)").1 = none ∧
      (Worksheet.new.write_formula 0 0 "=UNIQUE(A2:A10)").2.cellAt 0 0 =
        some (CellType.arrayFormula "_xlfn.UNIQUE(A2:A10)" 0 "0" true "A1") ∧
      (Worksheet.new.write_formula 0 0 "=UNIQUE(A2:A10)").2.has_dynamic_arrays = true ∧
      (Worksheet.new.write_formula 0 0 "=UNIQUE(A2:A10)").2.emit_array_formula_at 0 0 =
        some "<c r=\"A1\" cm=\"1\"><f t=\"array\" ref=\"A1\">_xlfn.UNIQUE(A2:A10)</f><v>0</v></c>") ∧
    ∀ (row col xf : Nat) (formula result range : String),
      ∃ a b : List Char,
        (write_array_formula_cell row col formula xf result true range).data =
          a ++ " cm=\"1\"".data ++ b ∧
        (write_array_formula_cell row col formula xf result false range).data =
          a ++ b := by
  constructor
  · exact ⟨by decide, by decide, by decide, by decide⟩
  · intro row col xf formula result range
    refine ⟨("<c r=\"" ++ col_to_name col ++ toString (row + 1) ++ "\"" ++
        (if 0 < xf then " s=\"" ++ toString xf ++ "\"" else "")).data,
      ((if !parsesF64 result then " t=\"str\"" else "") ++ "><f t=\"array\" ref=\"" ++
        range ++ "\">" ++ escape_data formula ++ "</f><v>" ++ escape_data result ++
        "</v></c>").data, ?_, ?_⟩ <;>
      simp [write_array_formula_cell, List.append_assoc]

/-! ## Effect lemmas for the write path (shared by the merge/dimension
claims) -/

theorem check_dimensions_in_range (ws : Worksheet) {row col : Nat}
    (hr : row < ROW_MAX) (hc : col < COL_MAX) :
    ws.check_dimensions row col =
      (true, { ws with dimensions := expandPoint ws.dimensions (row, col) }) := by
  unfold Worksheet.check_dimensions expandPoint
  rw [if_neg (Nat.not_le.mpr hr), if_neg (Nat.not_le.mpr hc)]

theorem format_index_found (ws : Worksheet) {f : Format} {xf : Nat}
    (h : alGet f ws.xf_indices = some xf) : ws.format_index f = (xf, ws) := by
  unfold Worksheet.format_index
  rw [h]

theorem format_index_mem (ws : Worksheet) (f : Format) :
    alGet f (ws.format_index f).2.xf_indices = some (ws.format_index f).1 := by
  unfold Worksheet.format_index
  cases h : alGet f ws.xf_indices with
  | some xf => simpa using h
  | none => simp [alGet]

theorem format_index_frame (ws : Worksheet) (f : Format) :
    (ws.format_index f).2.table = ws.table ∧
    (ws.format_index f).2.dimensions = ws.dimensions ∧
    (ws.format_index f).2.merged_ranges = ws.merged_ranges ∧
    (ws.format_index f).2.merged_cells = ws.merged_cells ∧
    (ws.format_index f).2.changed_rows = ws.changed_rows ∧
    (ws.format_index f).2.uses_string_table = ws.uses_string_table ∧
    (ws.format_index f).2.filter_conditions = ws.filter_conditions ∧
    (ws.format_index f).2.autofilter_defined_name = ws.autofilter_defined_name := by
  unfold Worksheet.format_index
  cases h : alGet f ws.xf_indices <;> simp [h]

/-- `store_blank` with an already-interned format: explicit result shape. -/
theorem store_blank_found (ws : Worksheet) {row col : Nat} {f : Format} {xf : Nat}
    (hr : row < ROW_MAX) (hc : col < COL_MAX)
    (hf : alGet f ws.xf_indices = some xf) :
    ws.store_blank row col f =
      (none,
        { ws with
          dimensions := expandPoint ws.dimensions (row, col)
          table := ((row, col), CellType.blank xf) :: ws.table }) := by
  unfold Worksheet.store_blank
  rw [check_dimensions_in_range ws hr hc]
  simp only [Bool.not_true, Bool.false_eq_true, if_false]
  rw [format_index_found _ (by simpa using hf)]
  rfl

/-- `write_string_with_format` on a nonempty short string with an
already-interned format: explicit result shape. -/
theorem write_string_fmt_found (ws : Worksheet) {row col : Nat} {s : String}
    {f : Format} {xf : Nat} (hr : row < ROW_MAX) (hc : col < COL_MAX)
    (hs : s ≠ "") (hlen : s.length ≤ MAX_STRING_LEN)
    (hf : alGet f ws.xf_indices = some xf) :
    ws.write_string_with_format row col s f =
      (none,
        { ws with
          dimensions := expandPoint ws.dimensions (row, col)
          table := ((row, col), CellType.str s xf) :: ws.table
          uses_string_table := true }) := by
  unfold Worksheet.write_string_with_format Worksheet.store_string
  rw [if_neg (by simpa [String.isEmpty_iff] using hs)]
  rw [check_dimensions_in_range ws hr hc]
  simp only [Bool.not_true, Bool.false_eq_true, if_false]
  rw [if_neg (Nat.not_lt.mpr hlen)]
  dsimp only [Worksheet.opt_format_index]
  rw [format_index_found _
    (show alGet f ({ ws with dimensions := expandPoint ws.dimensions (row, col) } :
      Worksheet).xf_indices = some xf from hf)]
  rfl

theorem alGet_cons {K V : Type} [DecidableEq K] (k k' : K) (v : V)
    (l : List (K × V)) :
    alGet k ((k', v) :: l) = if k' = k then some v else alGet k l := rfl

/-- `write_string_with_format` on a nonempty short string: abstract effect
shape (the format is interned if new; the stored cell carries the interned
index). -/
theorem write_string_fmt_effect (ws : Worksheet) {row col : Nat} {s : String}
    {f : Format} (hr : row < ROW_MAX) (hc : col < COL_MAX) (hs : s ≠ "")
    (hlen : s.length ≤ MAX_STRING_LEN) :
    ∃ xf ws', ws.write_string_with_format row col s f = (none, ws') ∧
      alGet f ws'.xf_indices = some xf ∧
      ws'.cellAt row col = some (CellType.str s xf) ∧
      (∀ q : Nat × Nat, q ≠ (row, col) → ws'.cellAt q.1 q.2 = ws.cellAt q.1 q.2) ∧
      ws'.merged_cells = ws.merged_cells ∧
      ws'.merged_ranges = ws.merged_ranges ∧
      ws'.changed_rows = ws.changed_rows ∧
      ws'.dimensions = expandPoint ws.dimensions (row, col) := by
  unfold Worksheet.write_string_with_format Worksheet.store_string
  rw [if_neg (by simpa [String.isEmpty_iff] using hs)]
  rw [check_dimensions_in_range ws hr hc]
  simp only [Bool.not_true, Bool.false_eq_true, if_false]
  rw [if_neg (Nat.not_lt.mpr hlen)]
  dsimp only [Worksheet.opt_format_index]
  obtain ⟨xf, ws2, hfi⟩ :
      ∃ xf ws2,
        ({ ws with dimensions := expandPoint ws.dimensions (row, col) } :
          Worksheet).format_index f = (xf, ws2) := ⟨_, _, rfl⟩
  have hmem := format_index_mem
    { ws with dimensions := expandPoint ws.dimensions (row, col) } f
  have hframe := format_index_frame
    { ws with dimensions := expandPoint ws.dimensions (row, col) } f
  rw [hfi] at hmem hframe
  obtain ⟨ht, hd, hmr, hmc, hcr, -, -, -⟩ := hframe
  rw [hfi]
  refine ⟨xf, _, rfl, hmem, ?_, ?_, ?_, ?_, ?_, ?_⟩
  · simp [Worksheet.cellAt, Worksheet.insert_cell, alGet_cons]
  · intro q hq
    simp only [Worksheet.cellAt, Worksheet.insert_cell]
    rw [alGet_cons, if_neg (by simpa using fun h => hq h.symm), ht]
  · simpa using hmc
  · simpa using hmr
  · simpa using hcr
  · simpa using hd

/-- The padding loop of `merge_range`: explicit success and cell contents
when the format is already interned and every cell is in range. -/
theorem padMergeBlanks_spec (f : Format) (first : Nat × Nat) (xf : Nat) :
    ∀ (cells : List (Nat × Nat)) (ws : Worksheet),
      (∀ p ∈ cells, p.1 < ROW_MAX ∧ p.2 < COL_MAX) →
      alGet f ws.xf_indices = some xf →
      (ws.padMergeBlanks f first cells).1 = none ∧
      (ws.padMergeBlanks f first cells).2.xf_indices = ws.xf_indices ∧
      (ws.padMergeBlanks f first cells).2.merged_ranges = ws.merged_ranges ∧
      (ws.padMergeBlanks f first cells).2.merged_cells = ws.merged_cells ∧
      (ws.padMergeBlanks f first cells).2.changed_rows = ws.changed_rows ∧
      (∀ p ∈ cells, p ≠ first →
        (ws.padMergeBlanks f first cells).2.cellAt p.1 p.2 =
          some (CellType.blank xf)) ∧
      (∀ q : Nat × Nat, q ∉ cells ∨ q = first →
        (ws.padMergeBlanks f first cells).2.cellAt q.1 q.2 = ws.cellAt q.1 q.2) := by
  intro cells
  induction cells with
  | nil =>
    intro ws _ _
    exact ⟨rfl, rfl, rfl, rfl, rfl, by simp, fun q _ => rfl⟩
  | cons rc rest ih =>
    intro ws hmem hf
    by_cases hfirst : rc = first
    · subst hfirst
      rw [show ws.padMergeBlanks f rc (rc :: rest) =
        ws.padMergeBlanks f rc rest from by rw [Worksheet.padMergeBlanks, if_pos rfl]]
      obtain ⟨h1, h2, h3, h4, h5, h6, h7⟩ :=
        ih ws (fun p hp => hmem p (List.mem_cons_of_mem _ hp)) hf
      refine ⟨h1, h2, h3, h4, h5, ?_, ?_⟩
      · intro p hp hne
        rcases List.mem_cons.mp hp with h | h
        · exact absurd h hne
        · exact h6 p h hne
      · intro q hq
        rcases hq with hq | hq
        · exact h7 q (Or.inl fun h => hq (List.mem_cons_of_mem _ h))
        · exact h7 q (Or.inr hq)
    · obtain ⟨hr, hc⟩ := hmem rc (List.mem_cons_self rc rest)
      have hblank := store_blank_found ws hr hc hf
      rw [show ws.padMergeBlanks f first (rc :: rest) =
          ((ws.write_blank rc.1 rc.2 f).2.padMergeBlanks f first rest) from by
        rw [Worksheet.padMergeBlanks, if_neg hfirst]
        rw [Worksheet.write_blank, hblank]
        rfl]
      rw [Worksheet.write_blank, hblank]
      set ws1 : Worksheet :=
        { ws with
          dimensions := expandPoint ws.dimensions (rc.1, rc.2)
          table := ((rc.1, rc.2), CellType.blank xf) :: ws.table } with hws1
      obtain ⟨h1, h2, h3, h4, h5, h6, h7⟩ :=
        ih ws1 (fun p hp => hmem p (List.mem_cons_of_mem _ hp)) hf
      refine ⟨h1, h2, h3, h4, h5, ?_, ?_⟩
      · intro p hp hne
        rcases List.mem_cons.mp hp with h | h
        · subst h
          by_cases hrest : p ∈ rest
          · exact h6 p hrest hne
          · rw [h7 p (Or.inl hrest)]
            simp [Worksheet.cellAt, hws1, alGet_cons, Prod.mk.eta]
        · exact h6 p h hne
      · intro q hq
        rcases hq with hq | hq
        · rw [h7 q (Or.inl fun h => hq (List.mem_cons_of_mem _ h))]
          simp only [Worksheet.cellAt, hws1, alGet_cons, Prod.mk.eta]
          rw [if_neg (fun (h : rc = q) => hq (h ▸ List.mem_cons_self rc rest))]
        · rw [h7 q (Or.inr hq)]
          simp only [Worksheet.cellAt, hws1, alGet_cons, Prod.mk.eta]
          rw [if_neg (fun (h : rc = q) => hfirst (h.trans hq))]

/-! ## Lemmas about the overlap scan of `merge_range` -/

/-- The scan changes nothing but the merged-cells index. -/
theorem scanMergedCells_shape (ni : Nat) (rng : CellRange) :
    ∀ (cells : List (Nat × Nat)) (ws : Worksheet),
      ∃ mc', (Worksheet.scanMergedCells ni rng ws cells).2 =
        { ws with merged_cells := mc' } := by
  intro cells
  induction cells with
  | nil => intro ws; exact ⟨ws.merged_cells, rfl⟩
  | cons c rest ih =>
    intro ws
    rw [Worksheet.scanMergedCells]
    cases h : alGet c ws.merged_cells with
    | some idx => exact ⟨ws.merged_cells, rfl⟩
    | none =>
      obtain ⟨mc', hmc'⟩ := ih { ws with merged_cells := (c, ni) :: ws.merged_cells }
      exact ⟨mc', hmc'⟩

/-- Cells not visited by the scan keep their index entry. -/
theorem scanMergedCells_not_mem (ni : Nat) (rng : CellRange) :
    ∀ (cells : List (Nat × Nat)) (ws : Worksheet) (q : Nat × Nat), q ∉ cells →
      alGet q (Worksheet.scanMergedCells ni rng ws cells).2.merged_cells =
        alGet q ws.merged_cells := by
  intro cells
  induction cells with
  | nil => intro ws q _; rfl
  | cons c rest ih =>
    intro ws q hq
    rw [Worksheet.scanMergedCells]
    cases h : alGet c ws.merged_cells with
    | some idx => rfl
    | none =>
      rw [ih _ q (fun h' => hq (List.mem_cons_of_mem _ h'))]
      rw [alGet_cons, if_neg (fun (h' : c = q) => hq (h' ▸ List.mem_cons_self c rest))]

/-- When some cell of a duplicate-free scan list is already indexed, the scan
aborts with `MergeRangeOverlaps` at the first such cell, after indexing
exactly the cells before it under the new id. -/
theorem scanMergedCells_error_spec (ni : Nat) (rng : CellRange) :
    ∀ (cells : List (Nat × Nat)) (ws : Worksheet), cells.Nodup →
      (∃ p ∈ cells, (alGet p ws.merged_cells).isSome = true) →
      (∃ e1 e2, (Worksheet.scanMergedCells ni rng ws cells).1 =
        some (XlsxError.MergeRangeOverlaps e1 e2)) ∧
      ∃ pre q post, cells = pre ++ q :: post ∧
        (alGet q ws.merged_cells).isSome = true ∧
        (∀ p ∈ pre, alGet p ws.merged_cells = none) ∧
        (∀ p ∈ pre,
          alGet p (Worksheet.scanMergedCells ni rng ws cells).2.merged_cells =
            some ni) := by
  intro cells
  induction cells with
  | nil => intro ws _ hex; simp at hex
  | cons c rest ih =>
    intro ws hnd hex
    have hcrest : c ∉ rest := (List.nodup_cons.mp hnd).1
    rw [Worksheet.scanMergedCells]
    cases h : alGet c ws.merged_cells with
    | some idx =>
      refine ⟨⟨_, _, rfl⟩, [], c, rest, rfl, by rw [h]; rfl, by simp, by simp⟩
    | none =>
      have hex' : ∃ p ∈ rest,
          (alGet p ({ ws with merged_cells := (c, ni) :: ws.merged_cells } :
            Worksheet).merged_cells).isSome = true := by
        obtain ⟨p, hp, hps⟩ := hex
        rcases List.mem_cons.mp hp with rfl | hp'
        · rw [h] at hps; cases hps
        · refine ⟨p, hp', ?_⟩
          show (alGet p ((c, ni) :: ws.merged_cells)).isSome = true
          rw [alGet_cons]
          by_cases hcp : c = p
          · rw [if_pos hcp]; rfl
          · rw [if_neg hcp]; exact hps
      obtain ⟨herr, pre', q', post', hsplit, hq's, hpre'none, hpre'ni⟩ :=
        ih { ws with merged_cells := (c, ni) :: ws.merged_cells }
          (List.nodup_cons.mp hnd).2 hex'
      have hq'rest : q' ∈ rest := hsplit ▸ List.mem_append_right pre'
        (List.mem_cons_self q' post')
      have hq'c : c ≠ q' := fun h' => hcrest (h' ▸ hq'rest)
      refine ⟨herr, c :: pre', q', post', by rw [hsplit, List.cons_append], ?_, ?_, ?_⟩
      · show (alGet q' ws.merged_cells).isSome = true
        have : alGet q' ((c, ni) :: ws.merged_cells) = alGet q' ws.merged_cells := by
          rw [alGet_cons, if_neg hq'c]
        rw [← this]
        exact hq's
      · intro p hp
        rcases List.mem_cons.mp hp with rfl | hp'
        · exact h
        · have := hpre'none p hp'
          rw [alGet_cons] at this
          by_cases hcp : c = p
          · rw [if_pos hcp] at this; cases this
          · rwa [if_neg hcp] at this
      · intro p hp
        rcases List.mem_cons.mp hp with rfl | hp'
        · rw [scanMergedCells_not_mem ni rng rest _ p hcrest]
          rw [alGet_cons, if_pos rfl]
        · exact hpre'ni p hp'

/-! ## The cells of a rectangular range -/

theorem mem_rowColsOf {a b c d : Nat} {p : Nat × Nat} :
    p ∈ rowColsOf a b c d ↔ a ≤ p.1 ∧ p.1 ≤ c ∧ b ≤ p.2 ∧ p.2 ≤ d := by
  unfold rowColsOf
  simp only [List.mem_flatMap, List.mem_map, List.mem_range'_1]
  constructor
  · rintro ⟨r, ⟨har, hrc⟩, cc, ⟨hbc, hcd⟩, rfl⟩
    exact ⟨har, by omega, hbc, by omega⟩
  · rintro ⟨h1, h2, h3, h4⟩
    exact ⟨p.1, ⟨h1, by omega⟩, p.2, ⟨h3, by omega⟩, rfl⟩

theorem rowColsOf_nodup (a b c d : Nat) : (rowColsOf a b c d).Nodup := by
  have heq : rowColsOf a b c d =
      (List.range' a (c + 1 - a)).product (List.range' b (d + 1 - b)) := rfl
  rw [heq]
  exact List.Nodup.product (List.nodup_range' _ _) (List.nodup_range' _ _)

/-- Variant of the scan analysis whose premise is the returned error itself. -/
theorem scanMergedCells_some_spec (ni : Nat) (rng : CellRange) :
    ∀ (cells : List (Nat × Nat)) (ws : Worksheet), cells.Nodup →
      (Worksheet.scanMergedCells ni rng ws cells).1 ≠ none →
      (∃ e1 e2, (Worksheet.scanMergedCells ni rng ws cells).1 =
        some (XlsxError.MergeRangeOverlaps e1 e2)) ∧
      ∃ pre q post, cells = pre ++ q :: post ∧
        (alGet q ws.merged_cells).isSome = true ∧
        (∀ p ∈ pre, alGet p ws.merged_cells = none) ∧
        (∀ p ∈ pre,
          alGet p (Worksheet.scanMergedCells ni rng ws cells).2.merged_cells =
            some ni) := by
  intro cells
  induction cells with
  | nil => intro ws _ hne; exact absurd rfl hne
  | cons c rest ih =>
    intro ws hnd hne
    have hcrest : c ∉ rest := (List.nodup_cons.mp hnd).1
    rw [Worksheet.scanMergedCells] at hne ⊢
    cases h : alGet c ws.merged_cells with
    | some idx =>
      refine ⟨⟨_, _, rfl⟩, [], c, rest, rfl, by rw [h]; rfl, by simp, by simp⟩
    | none =>
      rw [h] at hne
      obtain ⟨herr, pre', q', post', hsplit, hq's, hpre'none, hpre'ni⟩ :=
        ih { ws with merged_cells := (c, ni) :: ws.merged_cells }
          (List.nodup_cons.mp hnd).2 hne
      have hq'rest : q' ∈ rest := hsplit ▸ List.mem_append_right pre'
        (List.mem_cons_self q' post')
      have hq'c : c ≠ q' := fun h' => hcrest (h' ▸ hq'rest)
      refine ⟨herr, c :: pre', q', post', by rw [hsplit, List.cons_append], ?_, ?_, ?_⟩
      · show (alGet q' ws.merged_cells).isSome = true
        have halg : alGet q' ((c, ni) :: ws.merged_cells) = alGet q' ws.merged_cells := by
          rw [alGet_cons, if_neg hq'c]
        rw [← halg]
        exact hq's
      · intro p hp
        rcases List.mem_cons.mp hp with rfl | hp'
        · exact h
        · have h2 := hpre'none p hp'
          rw [alGet_cons] at h2
          by_cases hcp : c = p
          · rw [if_pos hcp] at h2; cases h2
          · rwa [if_neg hcp] at h2
      · intro p hp
        rcases List.mem_cons.mp hp with rfl | hp'
        · rw [scanMergedCells_not_mem ni rng rest _ p hcrest]
          rw [alGet_cons, if_pos rfl]
        · exact hpre'ni p hp'

/-- `merge_range` up to (but not including) the overlap scan: the writes
phase succeeds under the usual validity side conditions and produces the
string cell at the anchor and formatted blanks elsewhere, leaving the merge
bookkeeping untouched. -/
theorem merge_range_write_phase (ws : Worksheet) {fr fc lr lc : Nat}
    {s : String} {f : Format}
    (hfr : fr < ROW_MAX) (hfc : fc < COL_MAX) (hlr : lr < ROW_MAX)
    (hlc : lc < COL_MAX) (hrow : fr ≤ lr) (hcol : fc ≤ lc)
    (hns : ¬(fr = lr ∧ fc = lc)) (hs : s ≠ "")
    (hlen : s.length ≤ MAX_STRING_LEN) :
    ∃ (ws2 : Worksheet) (xf : Nat),
      ws.merge_range fr fc lr lc s f =
        andThen (Worksheet.scanMergedCells ws2.merged_ranges.length
          ⟨fr, fc, lr, lc⟩ ws2 (rowColsOf fr fc lr lc)) (fun w =>
            (none, { w with merged_ranges := w.merged_ranges ++ [⟨fr, fc, lr, lc⟩] })) ∧
      ws2.merged_cells = ws.merged_cells ∧
      ws2.merged_ranges = ws.merged_ranges ∧
      ws2.changed_rows = ws.changed_rows ∧
      ws2.cellAt fr fc = some (CellType.str s xf) ∧
      (∀ p ∈ rowColsOf fr fc lr lc, p ≠ (fr, fc) →
        ws2.cellAt p.1 p.2 = some (CellType.blank xf)) := by
  unfold Worksheet.merge_range
  rw [check_dimensions_in_range ws hfr hfc]
  simp only [Bool.not_true, Bool.false_eq_true, if_false]
  rw [check_dimensions_in_range _ hlr hlc]
  simp only [Bool.not_true, Bool.false_eq_true, if_false]
  rw [if_neg (by omega : ¬(lr < fr ∨ lc < fc)), if_neg hns]
  obtain ⟨xf, ws', heq, hmem', hcellstr, hpres, hmc, hmr, hcr, -⟩ :=
    write_string_fmt_effect
      { { ws with dimensions := expandPoint ws.dimensions (fr, fc) } with
        dimensions := expandPoint
          ({ ws with dimensions := expandPoint ws.dimensions (fr, fc) } :
            Worksheet).dimensions (lr, lc) }
      hfr hfc hs hlen
  rw [heq]
  simp only [andThen]
  have hbounds : ∀ p ∈ rowColsOf fr fc lr lc, p.1 < ROW_MAX ∧ p.2 < COL_MAX := by
    intro p hp
    obtain ⟨h1, h2, h3, h4⟩ := mem_rowColsOf.mp hp
    omega
  obtain ⟨p1, p2, p3, p4, p5, p6, p7⟩ :=
    padMergeBlanks_spec f (fr, fc) xf (rowColsOf fr fc lr lc) ws' hbounds hmem'
  have hpadeq : ws'.padMergeBlanks f (fr, fc) (rowColsOf fr fc lr lc) =
      (none, (ws'.padMergeBlanks f (fr, fc) (rowColsOf fr fc lr lc)).2) := by
    rw [← p1]
  rw [hpadeq]
  simp only [andThen]
  refine ⟨(ws'.padMergeBlanks f (fr, fc) (rowColsOf fr fc lr lc)).2, xf, rfl,
    ?_, ?_, ?_, ?_, ?_⟩
  · rw [p4, hmc]
  · rw [p3, hmr]
  · rw [p5, hcr]
  · rw [p7 (fr, fc) (Or.inr rfl)]
    exact hcellstr
  · exact p6

/-! ## Claim C7: merge-range error conditions -/

/-- Claim C7: for every in-range range, `merge_range` rejects single-cell
merges with `MergeRangeSingleCell`; a (non-single-cell) range that shares at
least one cell with a previously stored merged range is rejected with
`MergeRangeOverlaps`, and on that error the stored merged-range list — and
hence the emitted `<mergeCells>` content — still reflects only the earlier
merges. -/
theorem c7_merge_range_errors (ws : Worksheet) (fr fc lr lc : Nat) (s : String)
    (f : Format)
    (hfr : fr < ROW_MAX) (hfc : fc < COL_MAX) (hlr : lr < ROW_MAX)
    (hlc : lc < COL_MAX) (hrow : fr ≤ lr) (hcol : fc ≤ lc) (hs : s ≠ "")
    (hlen : s.length ≤ MAX_STRING_LEN)
    (hcons : ∀ (p : Nat × Nat) (r : CellRange), r ∈ ws.merged_ranges →
      r.containsCell p.1 p.2 → (alGet p ws.merged_cells).isSome = true) :
    ((fr = lr ∧ fc = lc) →
      (ws.merge_range fr fc lr lc s f).1 = some XlsxError.MergeRangeSingleCell) ∧
    (¬(fr = lr ∧ fc = lc) →
      ∀ (r : CellRange) (row col : Nat), r ∈ ws.merged_ranges →
        r.containsCell row col → fr ≤ row → row ≤ lr → fc ≤ col → col ≤ lc →
        (∃ e1 e2, (ws.merge_range fr fc lr lc s f).1 =
          some (XlsxError.MergeRangeOverlaps e1 e2)) ∧
        (ws.merge_range fr fc lr lc s f).2.merged_ranges = ws.merged_ranges ∧
        (ws.merge_range fr fc lr lc s f).2.merge_cell_refs = ws.merge_cell_refs) := by
  constructor
  · rintro ⟨h1, h2⟩
    unfold Worksheet.merge_range
    rw [check_dimensions_in_range ws hfr hfc]
    simp only [Bool.not_true, Bool.false_eq_true, if_false]
    rw [check_dimensions_in_range _ hlr hlc]
    simp only [Bool.not_true, Bool.false_eq_true, if_false]
    rw [if_neg (by omega : ¬(lr < fr ∨ lc < fc)), if_pos ⟨h1, h2⟩]
  · intro hns r row col hrmem hrcont h1 h2 h3 h4
    obtain ⟨ws2, xf, heq, hmc, hmr, hcr, hstr, hblanks⟩ :=
      merge_range_write_phase ws hfr hfc hlr hlc hrow hcol hns hs hlen
    have hexists : ∃ p ∈ rowColsOf fr fc lr lc,
        (alGet p ws2.merged_cells).isSome = true := by
      refine ⟨(row, col), mem_rowColsOf.mpr ⟨h1, h2, h3, h4⟩, ?_⟩
      rw [hmc]
      exact hcons (row, col) r hrmem hrcont
    obtain ⟨herr, -⟩ := scanMergedCells_error_spec ws2.merged_ranges.length
      ⟨fr, fc, lr, lc⟩ (rowColsOf fr fc lr lc) ws2
      (rowColsOf_nodup fr fc lr lc) hexists
    obtain ⟨e1, e2, hscan1⟩ := herr
    obtain ⟨mc', hshape⟩ := scanMergedCells_shape ws2.merged_ranges.length
      ⟨fr, fc, lr, lc⟩ (rowColsOf fr fc lr lc) ws2
    have hpair : Worksheet.scanMergedCells ws2.merged_ranges.length
        ⟨fr, fc, lr, lc⟩ ws2 (rowColsOf fr fc lr lc) =
        (some (XlsxError.MergeRangeOverlaps e1 e2),
          { ws2 with merged_cells := mc' }) := by
      rw [← hscan1, ← hshape]
    rw [heq, hpair]
    simp only [andThen]
    refine ⟨⟨e1, e2, rfl⟩, ?_, ?_⟩
    · exact hmr
    · show List.map CellRange.to_range_string
        ({ ws2 with merged_cells := mc' } : Worksheet).merged_ranges =
        List.map CellRange.to_range_string ws.merged_ranges
      rw [show ({ ws2 with merged_cells := mc' } : Worksheet).merged_ranges =
        ws2.merged_ranges from rfl, hmr]

/-- Claim C7 (witness): the single-cell and overlap errors at the concrete
scenario `merge_range(0,0,1,1)` then `merge_range(1,1,2,2)`. -/
theorem c7_merge_range_errors_witness :
    ((Worksheet.new.merge_range 0 0 0 0 "m" { appearance := 1 }).1 =
        some XlsxError.MergeRangeSingleCell) ∧
      (∃ e1 e2,
        ((Worksheet.new.merge_range 0 0 1 1 "m" { appearance := 1 }).2.merge_range
            1 1 2 2 "n" { appearance := 1 }).1 =
          some (XlsxError.MergeRangeOverlaps e1 e2)) ∧
      ((Worksheet.new.merge_range 0 0 1 1 "m" { appearance := 1 }).2.merge_range
          1 1 2 2 "n" { appearance := 1 }).2.merged_ranges =
        (Worksheet.new.merge_range 0 0 1 1 "m" { appearance := 1 }).2.merged_ranges ∧
      ((Worksheet.new.merge_range 0 0 1 1 "m" { appearance := 1 }).2.merge_range
          1 1 2 2 "n" { appearance := 1 }).2.merge_cell_refs = ["A1:B2"] := by
  have hempty : ∀ (p : Nat × Nat) (r : CellRange), r ∈ Worksheet.new.merged_ranges →
      r.containsCell p.1 p.2 → (alGet p Worksheet.new.merged_cells).isSome = true := by
    intro p r hr _
    exact absurd hr (List.not_mem_nil r)
  have hsingle := (c7_merge_range_errors Worksheet.new 0 0 0 0 "m" { appearance := 1 }
    (by decide) (by decide) (by decide) (by decide) (by decide) (by decide)
    (by decide) (by decide) hempty).1 ⟨rfl, rfl⟩
  have hranges : (Worksheet.new.merge_range 0 0 1 1 "m"
      { appearance := 1 }).2.merged_ranges =
      [{ first_row := 0, first_col := 0, last_row := 1, last_col := 1 }] := by decide
  have hcons : ∀ (p : Nat × Nat) (r : CellRange),
      r ∈ (Worksheet.new.merge_range 0 0 1 1 "m" { appearance := 1 }).2.merged_ranges →
      r.containsCell p.1 p.2 →
      (alGet p (Worksheet.new.merge_range 0 0 1 1 "m"
        { appearance := 1 }).2.merged_cells).isSome = true := by
    intro p r hr hc
    rw [hranges] at hr
    have hr' := List.mem_singleton.mp hr
    subst hr'
    obtain ⟨c1, c2, c3, c4⟩ := hc
    obtain ⟨a, b⟩ := p
    simp only at c1 c2 c3 c4 ⊢
    interval_cases a <;> interval_cases b <;> decide
  have hover := (c7_merge_range_errors
    (Worksheet.new.merge_range 0 0 1 1 "m" { appearance := 1 }).2 1 1 2 2 "n"
    { appearance := 1 } (by decide) (by decide) (by decide) (by decide)
    (by decide) (by decide) (by decide) (by decide) hcons).2
    (by decide)
    { first_row := 0, first_col := 0, last_row := 1, last_col := 1 } 1 1
    (by rw [hranges]; exact List.mem_singleton.mpr rfl) (by decide) (by decide)
    (by decide) (by decide) (by decide)
  refine ⟨hsingle, hover.1, ?_, ?_⟩
  · exact hover.2.1
  · rw [hover.2.2]
    decide

/-! ## Claim C10: merge_range is not atomic on the overlap error -/

/-- Claim C10: whenever `merge_range` returns `MergeRangeOverlaps`, the
string cell at the range's first cell and the formatted blanks over the rest
of the range have already been written into the cell store (overwriting any
previous contents), and the per-cell merged-cells index already holds
entries, under the prospective range id, for exactly the new range's cells
scanned before the first colliding cell; only the merged-ranges list is left
unchanged. -/
theorem c10_merge_range_not_atomic (ws : Worksheet) (fr fc lr lc : Nat)
    (s : String) (f : Format)
    (hfr : fr < ROW_MAX) (hfc : fc < COL_MAX) (hlr : lr < ROW_MAX)
    (hlc : lc < COL_MAX) (hrow : fr ≤ lr) (hcol : fc ≤ lc)
    (hns : ¬(fr = lr ∧ fc = lc)) (hs : s ≠ "")
    (hlen : s.length ≤ MAX_STRING_LEN) (e1 e2 : String)
    (herr : (ws.merge_range fr fc lr lc s f).1 =
      some (XlsxError.MergeRangeOverlaps e1 e2)) :
    ∃ xf,
      (ws.merge_range fr fc lr lc s f).2.cellAt fr fc =
        some (CellType.str s xf) ∧
      (∀ p ∈ rowColsOf fr fc lr lc, p ≠ (fr, fc) →
        (ws.merge_range fr fc lr lc s f).2.cellAt p.1 p.2 =
          some (CellType.blank xf)) ∧
      (ws.merge_range fr fc lr lc s f).2.merged_ranges = ws.merged_ranges ∧
      ∃ pre q post, rowColsOf fr fc lr lc = pre ++ q :: post ∧
        (alGet q ws.merged_cells).isSome = true ∧
        (∀ p ∈ pre, alGet p ws.merged_cells = none) ∧
        (∀ p ∈ pre,
          alGet p (ws.merge_range fr fc lr lc s f).2.merged_cells =
            some ws.merged_ranges.length) := by
  obtain ⟨ws2, xf, heq, hmc, hmr, hcr, hstr, hblanks⟩ :=
    merge_range_write_phase ws hfr hfc hlr hlc hrow hcol hns hs hlen
  rw [heq] at herr ⊢
  set S := Worksheet.scanMergedCells ws2.merged_ranges.length
    ⟨fr, fc, lr, lc⟩ ws2 (rowColsOf fr fc lr lc) with hS
  have hfst : S.1 ≠ none := by
    intro h0
    have hSeq : S = (S.1, S.2) := rfl
    rw [h0] at hSeq
    rw [hSeq] at herr
    simp only [andThen] at herr
    cases herr
  obtain ⟨-, pre, q, post, hsplit, hqsome, hprenone, hpreni⟩ :=
    scanMergedCells_some_spec ws2.merged_ranges.length ⟨fr, fc, lr, lc⟩
      (rowColsOf fr fc lr lc) ws2 (rowColsOf_nodup fr fc lr lc) hfst
  obtain ⟨mc', hshape⟩ := scanMergedCells_shape ws2.merged_ranges.length
    ⟨fr, fc, lr, lc⟩ (rowColsOf fr fc lr lc) ws2
  rw [← hS] at hshape hpreni
  cases hS1 : S.1 with
  | none => exact absurd hS1 hfst
  | some e =>
    have hSeq : S = (some e, S.2) := by rw [← hS1]
    rw [hSeq]
    simp only [andThen]
    refine ⟨xf, ?_, ?_, ?_, pre, q, post, hsplit, ?_, ?_, ?_⟩
    · show (S.2).cellAt fr fc = _
      rw [hshape]
      exact hstr
    · intro p hp hne
      show (S.2).cellAt p.1 p.2 = _
      rw [hshape]
      exact hblanks p hp hne
    · show (S.2).merged_ranges = _
      rw [hshape]
      exact hmr
    · rw [← hmc]
      exact hqsome
    · intro p hp
      rw [← hmc]
      exact hprenone p hp
    · intro p hp
      have := hpreni p hp
      rw [hmr] at this
      exact this

/-- Claim C10 (witness): the non-atomic failure at the concrete scenario
`merge_range(0,0,1,1,"m")` then `merge_range(1,1,2,2,"n")`: the second call
fails, yet its string/blank cells and partial index entries are present. -/
theorem c10_merge_range_not_atomic_witness :
    (((Worksheet.new.merge_range 0 0 1 1 "m" { appearance := 1 }).2.merge_range
        1 1 2 2 "n" { appearance := 1 }).1 =
      some (XlsxError.MergeRangeOverlaps "(1, 1, 2, 2) / B2:C3"
        "(0, 0, 1, 1) / A1:B2")) ∧
    ∃ xf,
      (((Worksheet.new.merge_range 0 0 1 1 "m" { appearance := 1 }).2.merge_range
          1 1 2 2 "n" { appearance := 1 }).2.cellAt 1 1 =
        some (CellType.str "n" xf)) ∧
      (∀ p ∈ rowColsOf 1 1 2 2, p ≠ (1, 1) →
        (((Worksheet.new.merge_range 0 0 1 1 "m"
            { appearance := 1 }).2.merge_range 1 1 2 2 "n"
            { appearance := 1 }).2.cellAt p.1 p.2 =
          some (CellType.blank xf))) ∧
      (((Worksheet.new.merge_range 0 0 1 1 "m" { appearance := 1 }).2.merge_range
          1 1 2 2 "n" { appearance := 1 }).2.merged_ranges =
        (Worksheet.new.merge_range 0 0 1 1 "m" { appearance := 1 }).2.merged_ranges) ∧
      ∃ pre q post, rowColsOf 1 1 2 2 = pre ++ q :: post ∧
        (alGet q (Worksheet.new.merge_range 0 0 1 1 "m"
          { appearance := 1 }).2.merged_cells).isSome = true ∧
        (∀ p ∈ pre, alGet p (Worksheet.new.merge_range 0 0 1 1 "m"
          { appearance := 1 }).2.merged_cells = none) ∧
        (∀ p ∈ pre,
          alGet p (((Worksheet.new.merge_range 0 0 1 1 "m"
              { appearance := 1 }).2.merge_range 1 1 2 2 "n"
              { appearance := 1 }).2.merged_cells) =
            some (Worksheet.new.merge_range 0 0 1 1 "m"
              { appearance := 1 }).2.merged_ranges.length) :=
  ⟨by decide,
    c10_merge_range_not_atomic
      (Worksheet.new.merge_range 0 0 1 1 "m" { appearance := 1 }).2 1 1 2 2 "n"
      { appearance := 1 } (by decide) (by decide) (by decide) (by decide)
      (by decide) (by decide) (by decide) (by decide) (by decide)
      "(1, 1, 2, 2) / B2:C3" "(0, 0, 1, 1) / A1:B2" (by decide)⟩

/-! ## Claim C8: autofilter row hiding -/

/-- `row_matches_list_filter` only looks at the cell table. -/
theorem row_matches_congr {ws1 ws2 : Worksheet} (h : ws1.table = ws2.table)
    (row col : Nat) (fc : FilterCondition) :
    ws1.row_matches_list_filter row col fc =
      ws2.row_matches_list_filter row col fc := by
  unfold Worksheet.row_matches_list_filter Worksheet.cellAt
  rw [h]

/-- `set_row_hidden` on a valid row: succeeds, marks (only) that row hidden,
and touches neither the cell table nor the filter state. -/
theorem set_row_hidden_effect (ws : Worksheet) {row : Nat} (hr : row < ROW_MAX)
    (hfc : ws.dimensions.first_col ≤ COL_MAX) :
    (ws.set_row_hidden row).1 = none ∧
    (ws.set_row_hidden row).2.table = ws.table ∧
    (ws.set_row_hidden row).2.dimensions.first_col ≤ COL_MAX ∧
    (alGet row (ws.set_row_hidden row).2.changed_rows).map RowOptions.hidden =
      some true ∧
    (∀ r : Nat, r ≠ row →
      alGet r (ws.set_row_hidden row).2.changed_rows =
        alGet r ws.changed_rows) := by
  have hcol : (if ws.dimensions.first_col ≠ COL_MAX then ws.dimensions.first_col
      else 0) < COL_MAX := by
    split
    · omega
    · decide
  unfold Worksheet.set_row_hidden
  dsimp only
  rw [check_dimensions_in_range ws hr hcol]
  simp only [Bool.not_true, Bool.false_eq_true, if_false]
  refine ⟨trivial, trivial, ?_, ?_, ?_⟩
  · show min ws.dimensions.first_col _ ≤ COL_MAX
    omega
  · cases h : alGet row ws.changed_rows <;>
      simp [h, alGet_cons]
  · intro r hrr
    cases h : alGet row ws.changed_rows <;>
      simp [h, alGet_cons, if_neg (fun (h' : row = r) => hrr h'.symm)]

/-- The per-column hiding walk on a list filter: the table is untouched, and
each visited row ends up marked hidden exactly when it did not match (rows
that match keep their previous row options). -/
theorem hideRowsForColumn_spec (fc : FilterCondition) (col : Nat)
    (hlist : fc.is_list_filter = true) :
    ∀ (rows : List Nat) (ws : Worksheet),
      (∀ r ∈ rows, r < ROW_MAX) →
      ws.dimensions.first_col ≤ COL_MAX →
      rows.Nodup →
      (ws.hideRowsForColumn fc col rows).table = ws.table ∧
      (ws.hideRowsForColumn fc col rows).dimensions.first_col ≤ COL_MAX ∧
      (∀ r ∈ rows,
        (ws.row_matches_list_filter r col fc = false →
          (alGet r (ws.hideRowsForColumn fc col rows).changed_rows).map
            RowOptions.hidden = some true) ∧
        (ws.row_matches_list_filter r col fc = true →
          alGet r (ws.hideRowsForColumn fc col rows).changed_rows =
            alGet r ws.changed_rows)) ∧
      (∀ r : Nat, r ∉ rows →
        alGet r (ws.hideRowsForColumn fc col rows).changed_rows =
          alGet r ws.changed_rows) := by
  intro rows
  induction rows with
  | nil =>
    intro ws _ hfc _
    exact ⟨rfl, hfc, by simp, fun r _ => rfl⟩
  | cons r0 rest ih =>
    intro ws hmem hfc hnd
    have hr0 : r0 < ROW_MAX := hmem r0 (List.mem_cons_self r0 rest)
    have hr0rest : r0 ∉ rest := (List.nodup_cons.mp hnd).1
    rw [Worksheet.hideRowsForColumn, hlist]
    simp only [if_true]
    by_cases hm : ws.row_matches_list_filter r0 col fc = true
    · rw [hm]
      simp only [Bool.not_true, Bool.false_eq_true, if_false]
      obtain ⟨ht, hd, hrows, hout⟩ :=
        ih ws (fun r hr => hmem r (List.mem_cons_of_mem _ hr)) hfc
          (List.nodup_cons.mp hnd).2
      refine ⟨ht, hd, ?_, ?_⟩
      · intro r hrmem
        rcases List.mem_cons.mp hrmem with rfl | hr'
        · exact ⟨fun hf => absurd hm (by rw [hf]; decide), fun _ =>
            hout r hr0rest⟩
        · exact hrows r hr'
      · intro r hr
        exact hout r (fun h => hr (List.mem_cons_of_mem _ h))
    · have hm' : ws.row_matches_list_filter r0 col fc = false :=
        Bool.not_eq_true _ ▸ hm
      rw [hm']
      simp only [Bool.not_false, if_true]
      obtain ⟨h1, h2, h3, h4, h5⟩ := set_row_hidden_effect ws hr0 hfc
      obtain ⟨ht, hd, hrows, hout⟩ :=
        ih (ws.set_row_hidden r0).2
          (fun r hr => hmem r (List.mem_cons_of_mem _ hr)) h3
          (List.nodup_cons.mp hnd).2
      have hmatch : ∀ r c' fc',
          (ws.set_row_hidden r0).2.row_matches_list_filter r c' fc' =
            ws.row_matches_list_filter r c' fc' :=
        fun r c' fc' => row_matches_congr h2 r c' fc'
      refine ⟨ht.trans h2, hd, ?_, ?_⟩
      · intro r hrmem
        rcases List.mem_cons.mp hrmem with rfl | hr'
        · refine ⟨fun _ => ?_, fun hmt => absurd hmt (by rw [hm']; decide)⟩
          rw [hout r hr0rest]
          exact h4
        · obtain ⟨ha, hb⟩ := hrows r hr'
          rw [hmatch] at ha hb
          refine ⟨ha, fun hmt => ?_⟩
          rw [hb hmt]
          exact h5 r (fun h => hr0rest (h ▸ hr'))
      · intro r hr
        rw [hout r (fun h => hr (List.mem_cons_of_mem _ h))]
        exact h5 r (fun h => hr (h ▸ List.mem_cons_self r0 rest))

/-- Claim C8: with an autofilter range set, a list filter condition on a
column, and automatic hiding on, the hiding pass marks hidden exactly the
data rows of the filter range (strictly after the header row) whose cell in
that column does not match the condition, leaving matching rows' options
untouched; on the concrete data `{East, West, East, North, South, West}` in
rows 1..6 filtered by `["East"]`, rows 2, 4, 5 and 6 are marked hidden and
rows 1 and 3 are not. -/
theorem c8_autofilter_list_hiding (ws : Worksheet) (col : Nat)
    (fc : FilterCondition)
    (hconds : ws.filter_conditions = [(col, fc)])
    (hlist : fc.is_list_filter = true)
    (hauto : ws.filter_automatic_off = false)
    (hlast : ws.autofilter_defined_name.last_row < ROW_MAX)
    (hfcol : ws.dimensions.first_col ≤ COL_MAX) :
    (∀ row : Nat, ws.autofilter_defined_name.first_row < row →
      row ≤ ws.autofilter_defined_name.last_row →
      (ws.row_matches_list_filter row col fc = false →
        (alGet row ws.hide_autofilter_rows.changed_rows).map RowOptions.hidden =
          some true) ∧
      (ws.row_matches_list_filter row col fc = true →
        alGet row ws.hide_autofilter_rows.changed_rows =
          alGet row ws.changed_rows)) ∧
    ((alGet 2 regionFiltered.changed_rows).map RowOptions.hidden = some true ∧
      (alGet 4 regionFiltered.changed_rows).map RowOptions.hidden = some true ∧
      (alGet 5 regionFiltered.changed_rows).map RowOptions.hidden = some true ∧
      (alGet 6 regionFiltered.changed_rows).map RowOptions.hidden = some true ∧
      alGet 1 regionFiltered.changed_rows = none ∧
      alGet 3 regionFiltered.changed_rows = none) := by
  constructor
  · intro row hlow hhigh
    have hrows : ∀ r ∈ List.range' (ws.autofilter_defined_name.first_row + 1)
        (ws.autofilter_defined_name.last_row + 1 -
          (ws.autofilter_defined_name.first_row + 1)), r < ROW_MAX := by
      intro r hr
      have := List.mem_range'_1.mp hr
      omega
    have hmemrow : row ∈ List.range' (ws.autofilter_defined_name.first_row + 1)
        (ws.autofilter_defined_name.last_row + 1 -
          (ws.autofilter_defined_name.first_row + 1)) := by
      rw [List.mem_range'_1]
      omega
    have hne : ws.filter_conditions.isEmpty = false := by
      rw [hconds]; rfl
    unfold Worksheet.hide_autofilter_rows
    rw [hne, hauto]
    simp only [Bool.false_eq_true, if_false, Bool.or_self]
    rw [hconds]
    show _ ∧ _
    have hfold :
        ([col].dedup).foldl
          (fun w c =>
            match alGet c w.filter_conditions with
            | some fcc => w.hideRowsForColumn fcc c
                (List.range' (ws.autofilter_defined_name.first_row + 1)
                  (ws.autofilter_defined_name.last_row + 1 -
                    (ws.autofilter_defined_name.first_row + 1)))
            | none => w) ws =
        ws.hideRowsForColumn fc col
          (List.range' (ws.autofilter_defined_name.first_row + 1)
            (ws.autofilter_defined_name.last_row + 1 -
              (ws.autofilter_defined_name.first_row + 1))) := by
      rw [show ([col] : List Nat).dedup = [col] from by
        rw [List.dedup_cons_of_not_mem (by simp), List.dedup_nil]]
      show (match alGet col ws.filter_conditions with
        | some fcc => ws.hideRowsForColumn fcc col _
        | none => ws) = _
      rw [hconds, alGet_cons, if_pos rfl]
    rw [show ((([(col, fc)].map Prod.fst).dedup) : List Nat) = [col].dedup from rfl]
    rw [hfold]
    obtain ⟨-, -, hrows', -⟩ := hideRowsForColumn_spec fc col hlist _ ws hrows
      hfcol (List.nodup_range' _ _)
    exact hrows' row hmemrow
  · refine ⟨by decide, by decide, by decide, by decide, by decide, by decide⟩

/-- Claim C8 (witness): the general hiding clause applied at the concrete
scenario, rows 2 (West, hidden) and 1 (East, untouched). -/
theorem c8_autofilter_list_hiding_witness :
    ((regionReady.row_matches_list_filter 2 0 eastFilter = false →
        (alGet 2 regionReady.hide_autofilter_rows.changed_rows).map
          RowOptions.hidden = some true) ∧
      (regionReady.row_matches_list_filter 2 0 eastFilter = true →
        alGet 2 regionReady.hide_autofilter_rows.changed_rows =
          alGet 2 regionReady.changed_rows)) ∧
    ((regionReady.row_matches_list_filter 1 0 eastFilter = false →
        (alGet 1 regionReady.hide_autofilter_rows.changed_rows).map
          RowOptions.hidden = some true) ∧
      (regionReady.row_matches_list_filter 1 0 eastFilter = true →
        alGet 1 regionReady.hide_autofilter_rows.changed_rows =
          alGet 1 regionReady.changed_rows)) :=
  ⟨(c8_autofilter_list_hiding regionReady 0 eastFilter (by decide) (by decide)
      (by decide) (by decide) (by decide)).1 2 (by decide) (by decide),
    (c8_autofilter_list_hiding regionReady 0 eastFilter (by decide) (by decide)
      (by decide) (by decide) (by decide)).1 1 (by decide) (by decide)⟩

/-! ## Claim C4: dimension tracking.  First, the bounding-box algebra. -/

theorem expandPoint_idem (d : CellRange) (p : Nat × Nat) :
    expandPoint (expandPoint d p) p = expandPoint d p := by
  cases d
  simp only [expandPoint, CellRange.mk.injEq]
  omega

theorem expandPoint_absorb {d : CellRange} {p : Nat × Nat}
    (h : d.containsCell p.1 p.2) : expandPoint d p = d := by
  obtain ⟨h1, h2, h3, h4⟩ := h
  cases d
  simp only [expandPoint, CellRange.mk.injEq]
  simp only [CellRange.containsCell] at h1 h2 h3 h4
  omega

theorem containsCell_expandPoint (d : CellRange) (p : Nat × Nat) :
    (expandPoint d p).containsCell p.1 p.2 := by
  cases d
  simp only [expandPoint, CellRange.containsCell]
  omega

theorem containsCell_expandPoint_mono {d : CellRange} {r c : Nat}
    (h : d.containsCell r c) (p : Nat × Nat) :
    (expandPoint d p).containsCell r c := by
  obtain ⟨h1, h2, h3, h4⟩ := h
  cases d
  simp only [expandPoint, CellRange.containsCell] at h1 h2 h3 h4 ⊢
  omega

/-! Per-operation dimension-effect lemmas, each with the success result as
hypothesis. -/

theorem store_blank_success_dims {ws : Worksheet} {r c : Nat} {f : Format}
    {ws' : Worksheet} (h : ws.store_blank r c f = (none, ws')) :
    ws'.dimensions = expandPoint ws.dimensions (r, c) := by
  by_cases hr : r < ROW_MAX
  · by_cases hc : c < COL_MAX
    · unfold Worksheet.store_blank at h
      rw [check_dimensions_in_range ws hr hc] at h
      simp only [Bool.not_true, Bool.false_eq_true, if_false] at h
      obtain ⟨xf, ws2, hfi⟩ :
          ∃ xf ws2, ({ ws with dimensions := expandPoint ws.dimensions (r, c) } :
            Worksheet).format_index f = (xf, ws2) := ⟨_, _, rfl⟩
      have hframe := (format_index_frame
        { ws with dimensions := expandPoint ws.dimensions (r, c) } f).2.1
      rw [hfi] at h hframe
      injection h with h1 h2
      rw [← h2]
      exact hframe
    · unfold Worksheet.store_blank Worksheet.check_dimensions at h
      rw [if_neg (by omega : ¬ROW_MAX ≤ r), if_pos (by omega : COL_MAX ≤ c)] at h
      simp at h
  · unfold Worksheet.store_blank Worksheet.check_dimensions at h
    rw [if_pos (by omega : ROW_MAX ≤ r)] at h
    simp at h

theorem store_string_success_dims {ws : Worksheet} {r c : Nat} {s : String}
    {fmt : Option Format} {ws' : Worksheet}
    (h : ws.store_string r c s fmt = (none, ws')) :
    (ws'.dimensions = ws.dimensions ∧ s.isEmpty = true ∧ fmt = none) ∨
      ws'.dimensions = expandPoint ws.dimensions (r, c) := by
  unfold Worksheet.store_string at h
  by_cases hs : s.isEmpty = true
  · rw [if_pos hs] at h
    cases fmt with
    | none =>
      injection h with h1 h2
      exact Or.inl ⟨h2 ▸ rfl, hs, rfl⟩
    | some f => exact Or.inr (store_blank_success_dims h)
  · rw [if_neg hs] at h
    by_cases hr : r < ROW_MAX
    · by_cases hc : c < COL_MAX
      · rw [check_dimensions_in_range ws hr hc] at h
        simp only [Bool.not_true, Bool.false_eq_true, if_false] at h
        by_cases hlen : MAX_STRING_LEN < s.length
        · rw [if_pos hlen] at h
          simp at h
        · rw [if_neg hlen] at h
          obtain ⟨xf, ws2, hfi⟩ :
              ∃ xf ws2, ({ ws with dimensions := expandPoint ws.dimensions (r, c) } :
                Worksheet).opt_format_index fmt = (xf, ws2) := ⟨_, _, rfl⟩
          have hdim : ws2.dimensions = expandPoint ws.dimensions (r, c) := by
            cases fmt with
            | none =>
              have : ws2 = { ws with dimensions := expandPoint ws.dimensions (r, c) } := by
                have h2 := congrArg Prod.snd hfi
                simpa [Worksheet.opt_format_index] using h2.symm
              rw [this]
            | some f =>
              have hfr := (format_index_frame
                { ws with dimensions := expandPoint ws.dimensions (r, c) } f).2.1
              have : ({ ws with dimensions := expandPoint ws.dimensions (r, c) } :
                  Worksheet).format_index f = (xf, ws2) := by
                simpa [Worksheet.opt_format_index] using hfi
              rw [this] at hfr
              exact hfr
          rw [hfi] at h
          injection h with h1 h2
          rw [← h2]
          exact Or.inr hdim
      · unfold Worksheet.check_dimensions at h
        rw [if_neg (by omega : ¬ROW_MAX ≤ r), if_pos (by omega : COL_MAX ≤ c)] at h
        simp at h
    · unfold Worksheet.check_dimensions at h
      rw [if_pos (by omega : ROW_MAX ≤ r)] at h
      simp at h

theorem check_dimensions_out (ws : Worksheet) {r c : Nat}
    (h : ROW_MAX ≤ r ∨ COL_MAX ≤ c) :
    ws.check_dimensions r c = (false, ws) := by
  unfold Worksheet.check_dimensions
  by_cases hr : ROW_MAX ≤ r
  · rw [if_pos hr]
  · rw [if_neg hr, if_pos (by omega : COL_MAX ≤ c)]

theorem opt_format_index_dims (ws : Worksheet) (fmt : Option Format) :
    (ws.opt_format_index fmt).2.dimensions = ws.dimensions := by
  cases fmt with
  | none => rfl
  | some f => exact (format_index_frame ws f).2.1

theorem store_number_success_dims {ws : Worksheet} {r c : Nat} {n : F64}
    {fmt : Option Format} {dt : Bool} {ws' : Worksheet}
    (h : ws.store_number_type r c n fmt dt = (none, ws')) :
    ws'.dimensions = expandPoint ws.dimensions (r, c) := by
  unfold Worksheet.store_number_type at h
  by_cases hr : r < ROW_MAX
  · by_cases hc : c < COL_MAX
    · rw [check_dimensions_in_range ws hr hc] at h
      simp only [Bool.not_true, Bool.false_eq_true, if_false] at h
      by_cases hn : n.isNan = true
      · rw [if_pos hn] at h
        rcases store_string_success_dims h with ⟨hd, -, -⟩ | hd
        · rw [hd]
        · rw [hd, show ({ ws with dimensions := expandPoint ws.dimensions (r, c) } :
            Worksheet).dimensions = expandPoint ws.dimensions (r, c) from rfl,
            expandPoint_idem]
      · rw [if_neg hn] at h
        have tail : ∀ (w2 : Worksheet),
            w2.dimensions = expandPoint ws.dimensions (r, c) →
            (let (xf_index, wsx) := w2.opt_format_index fmt
             (none, wsx.insert_cell r c
               (if dt then CellType.datetime n xf_index
                else CellType.number n xf_index)) :
              WsResult) = (none, ws') →
            ws'.dimensions = expandPoint ws.dimensions (r, c) := by
          intro w2 hw2 hh
          obtain ⟨xf, wsx, hfi⟩ : ∃ xf wsx, w2.opt_format_index fmt = (xf, wsx) :=
            ⟨_, _, rfl⟩
          have hdx := opt_format_index_dims w2 fmt
          rw [hfi] at hh hdx
          injection hh with h1 h2
          rw [← h2]
          show wsx.dimensions = _
          rw [hdx, hw2]
        by_cases hi : n.isInfinite = true
        · rw [if_pos hi] at h
          obtain ⟨e2, w2, hss⟩ :
              ∃ e2 w2, ({ ws with dimensions := expandPoint ws.dimensions (r, c) } :
                Worksheet).store_string r c "#DIV/0" none = (e2, w2) := ⟨_, _, rfl⟩
          rw [hss] at h
          cases e2 with
          | some err => simp [andThen] at h
          | none =>
            simp only [andThen] at h
            rcases store_string_success_dims hss with ⟨hd, -, -⟩ | hd
            · exact tail w2 (by rw [hd]) h
            · exact tail w2 (by rw [hd,
                show ({ ws with dimensions := expandPoint ws.dimensions (r, c) } :
                  Worksheet).dimensions = expandPoint ws.dimensions (r, c) from rfl,
                expandPoint_idem]) h
        · rw [if_neg hi] at h
          simp only [andThen] at h
          exact tail _ rfl h
    · rw [check_dimensions_out ws (Or.inr (by omega))] at h
      simp at h
  · rw [check_dimensions_out ws (Or.inl (by omega))] at h
    simp at h

theorem store_number_finite_dims (ws : Worksheet) {r c : Nat} (q : ℚ)
    (fmt : Option Format) (hr : r < ROW_MAX) (hc : c < COL_MAX) :
    (ws.store_number_type r c (F64.finite q) fmt false).1 = none ∧
    (ws.store_number_type r c (F64.finite q) fmt false).2.dimensions =
      expandPoint ws.dimensions (r, c) := by
  unfold Worksheet.store_number_type
  rw [check_dimensions_in_range ws hr hc]
  simp only [Bool.not_true, Bool.false_eq_true, if_false, F64.isNan, F64.isInfinite,
    andThen]
  obtain ⟨xf, wsx, hfi⟩ :
      ∃ xf wsx, ({ ws with dimensions := expandPoint ws.dimensions (r, c) } :
        Worksheet).opt_format_index fmt = (xf, wsx) := ⟨_, _, rfl⟩
  have hdx := opt_format_index_dims
    { ws with dimensions := expandPoint ws.dimensions (r, c) } fmt
  rw [hfi] at hdx
  rw [hfi]
  exact ⟨trivial, hdx⟩

theorem padArrayZeroes_dims (fmt : Option Format) (first : Nat × Nat) :
    ∀ (cells : List (Nat × Nat)) (ws : Worksheet),
      (∀ p ∈ cells, p.1 < ROW_MAX ∧ p.2 < COL_MAX ∧
        ws.dimensions.containsCell p.1 p.2) →
      (ws.padArrayZeroes fmt first cells).dimensions = ws.dimensions := by
  intro cells
  induction cells with
  | nil => intro ws _; rfl
  | cons rc rest ih =>
    intro ws hmem
    obtain ⟨hr, hc, hin⟩ := hmem rc (List.mem_cons_self rc rest)
    have hstep : ∀ (w2 : Worksheet), w2.dimensions = ws.dimensions →
        (w2.padArrayZeroes fmt first rest).dimensions = ws.dimensions := by
      intro w2 hw2
      rw [ih w2 (fun p hp => by
        obtain ⟨a, b, cin⟩ := hmem p (List.mem_cons_of_mem _ hp)
        exact ⟨a, b, hw2 ▸ cin⟩)]
      exact hw2
    by_cases hfirst : rc = first
    · show (if rc = first then ws.padArrayZeroes fmt first rest
        else _).dimensions = ws.dimensions
      rw [if_pos hfirst]
      exact ih ws (fun p hp => hmem p (List.mem_cons_of_mem _ hp))
    · cases fmt with
      | some f =>
        show (if rc = first then ws.padArrayZeroes (some f) first rest
          else ((ws.write_number_with_format rc.1 rc.2 (F64.finite 0) f).2.padArrayZeroes
            (some f) first rest)).dimensions = ws.dimensions
        rw [if_neg hfirst]
        apply hstep
        rw [show Worksheet.write_number_with_format ws rc.1 rc.2 (F64.finite 0) f =
          ws.store_number_type rc.1 rc.2 (F64.finite 0) (some f) false from rfl,
          (store_number_finite_dims ws 0 (some f) hr hc).2]
        exact expandPoint_absorb hin
      | none =>
        show (if rc = first then ws.padArrayZeroes none first rest
          else ((ws.write_number rc.1 rc.2 (F64.finite 0)).2.padArrayZeroes
            none first rest)).dimensions = ws.dimensions
        rw [if_neg hfirst]
        apply hstep
        rw [show Worksheet.write_number ws rc.1 rc.2 (F64.finite 0) =
          ws.store_number_type rc.1 rc.2 (F64.finite 0) none false from rfl,
          (store_number_finite_dims ws 0 none hr hc).2]
        exact expandPoint_absorb hin

theorem store_array_formula_success_dims {ws : Worksheet} {fr fc lr lc : Nat}
    {formula : String} {fmt : Option Format} {dyn : Bool} {ws' : Worksheet}
    (h : ws.store_array_formula fr fc lr lc formula fmt dyn = (none, ws')) :
    ws'.dimensions = expandPoint (expandPoint ws.dimensions (fr, fc)) (lr, lc) := by
  unfold Worksheet.store_array_formula at h
  by_cases hfr : fr < ROW_MAX
  · by_cases hfc : fc < COL_MAX
    · rw [check_dimensions_in_range ws hfr hfc] at h
      simp only [Bool.not_true, Bool.false_eq_true, if_false] at h
      by_cases hlr : lr < ROW_MAX
      · by_cases hlc : lc < COL_MAX
        · rw [check_dimensions_in_range _ hlr hlc] at h
          simp only [Bool.not_true, Bool.false_eq_true, if_false] at h
          by_cases horder : lr < fr ∨ lc < fc
          · rw [if_pos horder] at h
            simp at h
          · rw [if_neg horder] at h
            obtain ⟨xf, wsx, hfi⟩ :
                ∃ xf wsx,
                  ({ { ws with dimensions := expandPoint ws.dimensions (fr, fc) } with
                    dimensions := expandPoint
                      ({ ws with dimensions := expandPoint ws.dimensions (fr, fc) } :
                        Worksheet).dimensions (lr, lc) } :
                    Worksheet).opt_format_index fmt = (xf, wsx) := ⟨_, _, rfl⟩
            have hdx := opt_format_index_dims
              { { ws with dimensions := expandPoint ws.dimensions (fr, fc) } with
                dimensions := expandPoint
                  ({ ws with dimensions := expandPoint ws.dimensions (fr, fc) } :
                    Worksheet).dimensions (lr, lc) } fmt
            rw [hfi] at h hdx
            simp only at h
            injection h with h1 h2
            rw [← h2]
            have hgen : ∀ (w : Worksheet),
                w.dimensions = expandPoint (expandPoint ws.dimensions (fr, fc)) (lr, lc) →
                (w.padArrayZeroes fmt (fr, fc) (rowColsOf fr fc lr lc)).dimensions =
                  expandPoint (expandPoint ws.dimensions (fr, fc)) (lr, lc) := by
              intro w hw
              rw [padArrayZeroes_dims fmt (fr, fc) (rowColsOf fr fc lr lc) w ?_]
              · exact hw
              · intro p hp
                obtain ⟨b1, b2, b3, b4⟩ := mem_rowColsOf.mp hp
                refine ⟨by omega, by omega, ?_⟩
                rw [hw]
                cases ws.dimensions
                simp only [expandPoint, CellRange.containsCell]
                omega
            apply hgen
            show (if _ = true then _ else wsx : Worksheet).dimensions = _
            split
            · exact hdx
            · exact hdx
        · rw [check_dimensions_out _ (Or.inr (by omega))] at h
          simp at h
      · rw [check_dimensions_out _ (Or.inl (by omega))] at h
        simp at h
    · rw [check_dimensions_out ws (Or.inr (by omega))] at h
      simp at h
  · rw [check_dimensions_out ws (Or.inl (by omega))] at h
    simp at h

theorem store_formula_success_dims {ws : Worksheet} {r c : Nat}
    {formula : String} {fmt : Option Format} {ws' : Worksheet}
    (h : ws.store_formula r c formula fmt = (none, ws')) :
    ws'.dimensions = expandPoint ws.dimensions (r, c) := by
  unfold Worksheet.store_formula at h
  by_cases hdyn : is_dynamic_function formula = true
  · rw [if_pos hdyn] at h
    rw [store_array_formula_success_dims h, expandPoint_idem]
  · rw [if_neg hdyn] at h
    by_cases hr : r < ROW_MAX
    · by_cases hc : c < COL_MAX
      · rw [check_dimensions_in_range ws hr hc] at h
        simp only [Bool.not_true, Bool.false_eq_true, if_false] at h
        obtain ⟨xf, wsx, hfi⟩ :
            ∃ xf wsx, ({ ws with dimensions := expandPoint ws.dimensions (r, c) } :
              Worksheet).opt_format_index fmt = (xf, wsx) := ⟨_, _, rfl⟩
        have hdx := opt_format_index_dims
          { ws with dimensions := expandPoint ws.dimensions (r, c) } fmt
        rw [hfi] at h hdx
        simp only at h
        injection h with h1 h2
        rw [← h2]
        exact hdx
      · rw [check_dimensions_out ws (Or.inr (by omega))] at h
        simp at h
    · rw [check_dimensions_out ws (Or.inl (by omega))] at h
      simp at h

theorem store_blank_bounds (ws : Worksheet) {r c : Nat} (f : Format)
    (hr : r < ROW_MAX) (hc : c < COL_MAX) :
    (ws.store_blank r c f).1 = none ∧
    (ws.store_blank r c f).2.dimensions = expandPoint ws.dimensions (r, c) := by
  unfold Worksheet.store_blank
  rw [check_dimensions_in_range ws hr hc]
  simp only [Bool.not_true, Bool.false_eq_true, if_false]
  obtain ⟨xf, wsx, hfi⟩ :
      ∃ xf wsx, ({ ws with dimensions := expandPoint ws.dimensions (r, c) } :
        Worksheet).format_index f = (xf, wsx) := ⟨_, _, rfl⟩
  have hdx := (format_index_frame
    { ws with dimensions := expandPoint ws.dimensions (r, c) } f).2.1
  rw [hfi] at hdx
  rw [hfi]
  exact ⟨trivial, hdx⟩

theorem padMergeBlanks_dims (f : Format) (first : Nat × Nat) :
    ∀ (cells : List (Nat × Nat)) (ws : Worksheet),
      (∀ p ∈ cells, p.1 < ROW_MAX ∧ p.2 < COL_MAX ∧
        ws.dimensions.containsCell p.1 p.2) →
      (ws.padMergeBlanks f first cells).1 = none ∧
      (ws.padMergeBlanks f first cells).2.dimensions = ws.dimensions := by
  intro cells
  induction cells with
  | nil => intro ws _; exact ⟨rfl, rfl⟩
  | cons rc rest ih =>
    intro ws hmem
    obtain ⟨hr, hc, hin⟩ := hmem rc (List.mem_cons_self rc rest)
    have hstepEq : ws.padMergeBlanks f first (rc :: rest) =
        (if rc = first then ws.padMergeBlanks f first rest
         else andThen (ws.write_blank rc.1 rc.2 f) fun ws2 =>
           ws2.padMergeBlanks f first rest) := rfl
    by_cases hfirst : rc = first
    · rw [hstepEq, if_pos hfirst]
      exact ih ws (fun p hp => hmem p (List.mem_cons_of_mem _ hp))
    · rw [hstepEq, if_neg hfirst]
      obtain ⟨hb1, hb2⟩ := store_blank_bounds ws f hr hc
      have hblank : ws.write_blank rc.1 rc.2 f =
          (none, (ws.write_blank rc.1 rc.2 f).2) := Prod.ext hb1 rfl
      rw [hblank]
      simp only [andThen]
      have hdims2 : (ws.write_blank rc.1 rc.2 f).2.dimensions = ws.dimensions := by
        show (ws.store_blank rc.1 rc.2 f).2.dimensions = ws.dimensions
        rw [hb2]
        exact expandPoint_absorb hin
      obtain ⟨q1, q2⟩ := ih (ws.write_blank rc.1 rc.2 f).2 (fun p hp => by
        obtain ⟨a, b, cin⟩ := hmem p (List.mem_cons_of_mem _ hp)
        exact ⟨a, b, hdims2 ▸ cin⟩)
      exact ⟨q1, by rw [q2, hdims2]⟩

theorem merge_range_success_dims {ws : Worksheet} {fr fc lr lc : Nat}
    {s : String} {f : Format} {ws' : Worksheet}
    (h : ws.merge_range fr fc lr lc s f = (none, ws')) :
    ws'.dimensions = expandPoint (expandPoint ws.dimensions (fr, fc)) (lr, lc) := by
  unfold Worksheet.merge_range at h
  by_cases hfr : fr < ROW_MAX
  · by_cases hfc : fc < COL_MAX
    · rw [check_dimensions_in_range ws hfr hfc] at h
      simp only [Bool.not_true, Bool.false_eq_true, if_false] at h
      by_cases hlr : lr < ROW_MAX
      · by_cases hlc : lc < COL_MAX
        · rw [check_dimensions_in_range _ hlr hlc] at h
          simp only [Bool.not_true, Bool.false_eq_true, if_false] at h
          by_cases horder : lr < fr ∨ lc < fc
          · rw [if_pos horder] at h
            simp at h
          · rw [if_neg horder] at h
            by_cases hsingle : fr = lr ∧ fc = lc
            · rw [if_pos hsingle] at h
              simp at h
            · rw [if_neg hsingle] at h
              obtain ⟨e1, w1, hw⟩ :
                  ∃ e1 w1,
                    ({ { ws with dimensions := expandPoint ws.dimensions (fr, fc) } with
                      dimensions := expandPoint
                        ({ ws with dimensions := expandPoint ws.dimensions (fr, fc) } :
                          Worksheet).dimensions (lr, lc) } :
                      Worksheet).write_string_with_format fr fc s f = (e1, w1) :=
                ⟨_, _, rfl⟩
              rw [hw] at h
              cases e1 with
              | some err => simp [andThen] at h
              | none =>
                simp only [andThen] at h
                have hw1 : w1.dimensions =
                    expandPoint (expandPoint ws.dimensions (fr, fc)) (lr, lc) := by
                  rcases store_string_success_dims hw with ⟨-, -, hbad⟩ | hd
                  · cases hbad
                  · rw [hd]
                    exact expandPoint_absorb (containsCell_expandPoint_mono
                      (containsCell_expandPoint ws.dimensions (fr, fc)) (lr, lc))
                obtain ⟨p1, p2⟩ := padMergeBlanks_dims f (fr, fc)
                  (rowColsOf fr fc lr lc) w1 (fun p hp => by
                    obtain ⟨b1, b2, b3, b4⟩ := mem_rowColsOf.mp hp
                    refine ⟨by omega, by omega, ?_⟩
                    rw [hw1]
                    cases ws.dimensions
                    simp only [expandPoint, CellRange.containsCell]
                    omega)
                have hpad : w1.padMergeBlanks f (fr, fc) (rowColsOf fr fc lr lc) =
                    (none, (w1.padMergeBlanks f (fr, fc) (rowColsOf fr fc lr lc)).2) := by
                  rw [← p1]
                rw [hpad] at h
                simp only [andThen] at h
                obtain ⟨es, wsc, hsc⟩ :
                    ∃ es wsc,
                      Worksheet.scanMergedCells
                        (w1.padMergeBlanks f (fr, fc) (rowColsOf fr fc lr lc)).2.merged_ranges.length
                        { first_row := fr, first_col := fc, last_row := lr, last_col := lc }
                        (w1.padMergeBlanks f (fr, fc) (rowColsOf fr fc lr lc)).2
                        (rowColsOf fr fc lr lc) = (es, wsc) := ⟨_, _, rfl⟩
                obtain ⟨mc', hshape⟩ := scanMergedCells_shape
                  (w1.padMergeBlanks f (fr, fc) (rowColsOf fr fc lr lc)).2.merged_ranges.length
                  { first_row := fr, first_col := fc, last_row := lr, last_col := lc }
                  (rowColsOf fr fc lr lc)
                  (w1.padMergeBlanks f (fr, fc) (rowColsOf fr fc lr lc)).2
                rw [hsc] at h hshape
                cases es with
                | some err => simp [andThen] at h
                | none =>
                  simp only [andThen] at h
                  injection h with h1 h2
                  rw [← h2]
                  show wsc.dimensions = _
                  have hs2 : wsc =
                      { (w1.padMergeBlanks f (fr, fc) (rowColsOf fr fc lr lc)).2 with
                        merged_cells := mc' } := hshape
                  rw [hs2]
                  show (w1.padMergeBlanks f (fr, fc) (rowColsOf fr fc lr lc)).2.dimensions = _
                  rw [p2, hw1]
        · rw [check_dimensions_out _ (Or.inr (by omega))] at h
          simp at h
      · rw [check_dimensions_out _ (Or.inl (by omega))] at h
        simp at h
    · rw [check_dimensions_out ws (Or.inr (by omega))] at h
      simp at h
  · rw [check_dimensions_out ws (Or.inl (by omega))] at h
    simp at h

theorem set_row_hidden_success_dims {ws : Worksheet} {row : Nat} {ws' : Worksheet}
    (h : ws.set_row_hidden row = (none, ws')) :
    ws'.dimensions = expandPoint ws.dimensions
      (row, if ws.dimensions.first_col ≠ COL_MAX then ws.dimensions.first_col else 0) := by
  unfold Worksheet.set_row_hidden at h
  dsimp only at h
  by_cases hr : row < ROW_MAX
  · by_cases hc : (if ws.dimensions.first_col ≠ COL_MAX then ws.dimensions.first_col
        else 0) < COL_MAX
    · rw [check_dimensions_in_range ws hr hc] at h
      simp only [Bool.not_true, Bool.false_eq_true, if_false] at h
      injection h with h1 h2
      rw [← h2]
    · rw [check_dimensions_out ws (Or.inr (by omega))] at h
      simp at h
  · rw [check_dimensions_out ws (Or.inl (by omega))] at h
    simp at h

theorem set_row_height_success_dims {ws : Worksheet} {row : Nat} {ht : ℚ}
    {ws' : Worksheet} (h : ws.set_row_height row ht = (none, ws')) :
    ws'.dimensions = expandPoint ws.dimensions
      (row, if ws.dimensions.first_col ≠ COL_MAX then ws.dimensions.first_col else 0) := by
  unfold Worksheet.set_row_height at h
  by_cases hz : ht = 0
  · rw [if_pos hz] at h
    exact set_row_hidden_success_dims h
  · rw [if_neg hz] at h
    dsimp only at h
    by_cases hr : row < ROW_MAX
    · by_cases hc : (if ws.dimensions.first_col ≠ COL_MAX then ws.dimensions.first_col
          else 0) < COL_MAX
      · rw [check_dimensions_in_range ws hr hc] at h
        simp only [Bool.not_true, Bool.false_eq_true, if_false] at h
        injection h with h1 h2
        rw [← h2]
      · rw [check_dimensions_out ws (Or.inr (by omega))] at h
        simp at h
    · rw [check_dimensions_out ws (Or.inl (by omega))] at h
      simp at h

theorem autofilter_dims (ws : Worksheet) (fr fc lr lc : Nat) :
    (ws.autofilter fr fc lr lc).2.dimensions = ws.dimensions := by
  unfold Worksheet.autofilter
  split
  · rfl
  · split
    · rfl
    · rfl

theorem filter_column_dims (ws : Worksheet) (col : Nat) (fc : FilterCondition) :
    (ws.filter_column col fc).2.dimensions = ws.dimensions := by
  unfold Worksheet.filter_column
  split
  · rfl
  · split
    · rfl
    · split
      · rfl
      · split
        · rfl
        · rfl

theorem store_url_success_dims {ws : Worksheet} {r c : Nat}
    {url text tip : String} {fmt : Option Format} {ws' : Worksheet}
    (h : ws.store_url r c url text tip fmt = (none, ws')) :
    ws'.dimensions = expandPoint ws.dimensions (r, c) := by
  unfold Worksheet.store_url at h
  cases hnew : Hyperlink.new url text tip with
  | error e =>
    rw [hnew] at h
    simp at h
  | ok hl =>
    rw [hnew] at h
    dsimp only at h
    obtain ⟨e1, w1, hw⟩ :
        ∃ e1 w1, ws.write_string_with_format r c hl.text
          (match fmt with
           | some fv => fv
           | none => { is_hyperlink := true : Format }) = (e1, w1) := ⟨_, _, rfl⟩
    rw [hw] at h
    cases e1 with
    | some err => simp [andThen] at h
    | none =>
      simp only [andThen] at h
      injection h with h1 h2
      rw [← h2]
      show w1.dimensions = _
      rcases store_string_success_dims hw with ⟨hd, hemp, hbad⟩ | hd
      · cases hbad
      · exact hd

/-- Every successful operation widens the tracked dimensions by exactly its
recorded positions. -/
theorem op_apply_dims {ws : Worksheet} {op : Op} {ws' : Worksheet}
    (h : Op.apply ws op = (none, ws')) :
    ws'.dimensions = expandPoints (dimPointsOf ws op) ws.dimensions := by
  cases op with
  | writeNumber r c n =>
    have h' : ws.store_number_type r c n none false = (none, ws') := h
    simpa [expandPoints, dimPointsOf] using store_number_success_dims h'
  | writeNumberFmt r c n f =>
    have h' : ws.store_number_type r c n (some f) false = (none, ws') := h
    simpa [expandPoints, dimPointsOf] using store_number_success_dims h'
  | writeString r c s =>
    have h' : ws.store_string r c s none = (none, ws') := h
    by_cases hs : s.isEmpty = true
    · have hws : ws.store_string r c s none = (none, ws) := by
        unfold Worksheet.store_string
        rw [if_pos hs]
      rw [hws] at h'
      injection h' with h1 h2
      simp [expandPoints, dimPointsOf, hs, ← h2]
    · rcases store_string_success_dims h' with ⟨-, hemp, -⟩ | hd
      · exact absurd hemp hs
      · simpa [expandPoints, dimPointsOf, hs] using hd
  | writeStringFmt r c s f =>
    have h' : ws.store_string r c s (some f) = (none, ws') := h
    rcases store_string_success_dims h' with ⟨-, -, hbad⟩ | hd
    · cases hbad
    · simpa [expandPoints, dimPointsOf] using hd
  | writeBlank r c f =>
    have h' : ws.store_blank r c f = (none, ws') := h
    simpa [expandPoints, dimPointsOf] using store_blank_success_dims h'
  | writeFormula r c s =>
    have h' : ws.store_formula r c s none = (none, ws') := h
    simpa [expandPoints, dimPointsOf] using store_formula_success_dims h'
  | writeArrayFormula fr fc lr lc s =>
    have h' : ws.store_array_formula fr fc lr lc s none false = (none, ws') := h
    simpa [expandPoints, dimPointsOf] using store_array_formula_success_dims h'
  | mergeRange fr fc lr lc s f =>
    have h' : ws.merge_range fr fc lr lc s f = (none, ws') := h
    simpa [expandPoints, dimPointsOf] using merge_range_success_dims h'
  | writeUrl r c url =>
    have h' : ws.store_url r c url "" "" none = (none, ws') := h
    simpa [expandPoints, dimPointsOf] using store_url_success_dims h'
  | setRowHeight row ht =>
    have h' : ws.set_row_height row ht = (none, ws') := h
    simpa [expandPoints, dimPointsOf] using set_row_height_success_dims h'
  | setRowHidden row =>
    have h' : ws.set_row_hidden row = (none, ws') := h
    simpa [expandPoints, dimPointsOf] using set_row_hidden_success_dims h'
  | setAutofilter fr fc lr lc =>
    have h' : ws.autofilter fr fc lr lc = (none, ws') := h
    have h2 : ws' = (ws.autofilter fr fc lr lc).2 := by rw [h']
    rw [h2]
    simpa [expandPoints, dimPointsOf] using autofilter_dims ws fr fc lr lc
  | setFilterColumn col fc =>
    have h' : ws.filter_column col fc = (none, ws') := h
    have h2 : ws' = (ws.filter_column col fc).2 := by rw [h']
    rw [h2]
    simpa [expandPoints, dimPointsOf] using filter_column_dims ws col fc

/-- The tracked dimensions along any successful trace are the fold of the
recorded positions. -/
theorem applyOps_dims :
    ∀ (ops : List Op) (ws ws' : Worksheet), applyOps ws ops = some ws' →
      ws'.dimensions = expandPoints (tracePoints ws ops) ws.dimensions := by
  intro ops
  induction ops with
  | nil =>
    intro ws ws' h
    injection h with h1
    rw [← h1]
    rfl
  | cons op rest ih =>
    intro ws ws' h
    obtain ⟨e, w1, happ⟩ : ∃ e w1, Op.apply ws op = (e, w1) := ⟨_, _, rfl⟩
    have hh : applyOps ws (op :: rest) =
        (match Op.apply ws op with
         | (none, ws2) => applyOps ws2 rest
         | (some _, _) => none) := rfl
    rw [hh, happ] at h
    cases e with
    | some err => simp at h
    | none =>
      have ht : tracePoints ws (op :: rest) =
          dimPointsOf ws op ++ tracePoints w1 rest := by
        have : tracePoints ws (op :: rest) =
            (match Op.apply ws op with
             | (none, ws2) => dimPointsOf ws op ++ tracePoints ws2 rest
             | (some _, _) => []) := rfl
        rw [this, happ]
      rw [ht]
      unfold expandPoints
      rw [List.foldl_append]
      rw [show List.foldl expandPoint ws.dimensions (dimPointsOf ws op) =
        w1.dimensions from (op_apply_dims happ).symm]
      exact ih w1 ws' h

/-- Claim C4 (counterexample): a successful caller operation that writes no
cell — `set_row_height(5, 30)` on a fresh worksheet — still widens the
tracked dimensions, so `<dimension ref=>` is `A6` although the bounding box
of the non-empty cells is empty (the claim requires `A1`). -/
theorem c4_dimension_counterexample :
    (Worksheet.new.set_row_height 5 30).1 = none ∧
    (Worksheet.new.set_row_height 5 30).2.table = [] ∧
    (Worksheet.new.set_row_height 5 30).2.dimension_ref = "A6" := by
  refine ⟨by decide, by decide, by decide⟩

/-- Claim C4 (as amended): for every worksheet state reachable by a sequence
of successful operations, the tracked dimensions equal the bounding box of
all positions recorded by those operations — the written cells (for range
operations, their corners) *and* the rows touched by row-option operations
such as `set_row_height`/`set_row_hidden`, each paired with the leftmost
known column — and the emitted `ref` is `A1` when nothing was recorded and
the range string of that bounding box otherwise. -/
theorem c4_dimension_tracking (ops : List Op) (ws' : Worksheet)
    (h : applyOps Worksheet.new ops = some ws') :
    ws'.dimensions = expandPoints (tracePoints Worksheet.new ops) initDimensions ∧
    (tracePoints Worksheet.new ops = [] → ws'.dimension_ref = "A1") ∧
    (ws'.dimensions ≠ initDimensions →
      ws'.dimension_ref = cell_range ws'.dimensions.first_row
        ws'.dimensions.first_col ws'.dimensions.last_row ws'.dimensions.last_col) := by
  have hdims := applyOps_dims ops Worksheet.new ws' h
  refine ⟨hdims, ?_, ?_⟩
  · intro htr
    rw [htr] at hdims
    have hinit : ws'.dimensions = initDimensions := hdims
    unfold Worksheet.dimension_ref
    rw [if_neg ?_]
    rw [hinit]
    push_neg
    exact ⟨rfl, rfl, rfl, rfl⟩
  · intro hne
    unfold Worksheet.dimension_ref
    rw [if_pos ?_]
    by_contra hcon
    push_neg at hcon
    obtain ⟨h1, h2, h3, h4⟩ := hcon
    apply hne
    have hd : ws'.dimensions =
        { first_row := ws'.dimensions.first_row
          first_col := ws'.dimensions.first_col
          last_row := ws'.dimensions.last_row
          last_col := ws'.dimensions.last_col } := rfl
    rw [hd, h1, h2, h3, h4]
    rfl

/-- Claim C4 (witness): the amended dimension invariant applied to the trace
`[set_row_height 5 30]`. -/
theorem c4_dimension_tracking_witness :
    (applyOps Worksheet.new [Op.setRowHeight 5 30] =
      some (Worksheet.new.set_row_height 5 30).2) ∧
    ((Worksheet.new.set_row_height 5 30).2.dimensions =
      expandPoints (tracePoints Worksheet.new [Op.setRowHeight 5 30])
        initDimensions ∧
    (tracePoints Worksheet.new [Op.setRowHeight 5 30] = [] →
      (Worksheet.new.set_row_height 5 30).2.dimension_ref = "A1") ∧
    ((Worksheet.new.set_row_height 5 30).2.dimensions ≠ initDimensions →
      (Worksheet.new.set_row_height 5 30).2.dimension_ref =
        cell_range (Worksheet.new.set_row_height 5 30).2.dimensions.first_row
          (Worksheet.new.set_row_height 5 30).2.dimensions.first_col
          (Worksheet.new.set_row_height 5 30).2.dimensions.last_row
          (Worksheet.new.set_row_height 5 30).2.dimensions.last_col)) :=
  ⟨by decide,
    c4_dimension_tracking [Op.setRowHeight 5 30]
      (Worksheet.new.set_row_height 5 30).2 (by decide)⟩

end XlsxSpec
